import Mathlib

/-!
Verification development for the palm-backend service layer.

The backend is a layered CRUD REST API over a relational store accessed through
the drizzle ORM.  This file gives a shallow embedding of the service-layer
functions that the specification's claims are about, and proves or refutes each
claim against that embedding.

Modelling conventions, used throughout:
- Tables are Lean lists of structures; a serial primary key is a `Nat` field.
- Nullable SQL columns are `Option` fields; a SQL `NULL` comparison is false.
- JavaScript truthiness tests on optional strings and numeric ids are modelled
  by `jsStr` and `jsNat` (empty string and 0 are falsy).
- Floating point rating arithmetic is modelled over `ℚ`; integer columns over
  `Int` or `Nat`.
- The drizzle dynamic query builder is modelled by an explicit configuration
  record.  Crucially, drizzle's `where` method assigns `config.where`, so a
  second `.where(...)` call on the same builder replaces the first condition
  instead of conjoining it; the embedding reproduces that assignment semantics.
- Query execution follows SQL semantics: joins, then the (single) where
  filter, then ordering (a stable sort; ties keep table order), then
  offset/limit.  Postgres null ordering defaults (ASC NULLS LAST,
  DESC NULLS FIRST) are used for nullable sort keys.
- JavaScript `Map` objects keyed by primary key are modelled by list lookups
  (`List.find?`); this matches `Map` insertion-order semantics whenever the
  primary keys are distinct, which the well-formedness predicates below state.
-/

/-- Error object thrown by the service layer (`AppError` in the source):
a human-readable message plus an HTTP-style status code carried on the error. -/
structure AppError where
  message : String
  status : Nat
deriving Repr, DecidableEq

/-- Auxiliary for substring matching: does the first character list occur as a
leading segment of the second? -/
def charsLead : List Char → List Char → Bool
  | [], _ => true
  | _ :: _, [] => false
  | a :: as, b :: bs => a == b && charsLead as bs

/-- Does `pat` occur as a contiguous segment of `hay`? -/
def charsContain (hay pat : List Char) : Bool :=
  match hay with
  | [] => charsLead pat []
  | _ :: t => charsLead pat hay || charsContain t pat

/-- String containment; models the SQL predicate `col LIKE '%pat%'`. -/
def strContains (hay pat : String) : Bool :=
  charsContain hay.toList pat.toList

/-- `LIKE '%pat%'` on a nullable column: a SQL NULL never matches. -/
def likeOpt (s : Option String) (pat : String) : Bool :=
  match s with
  | some v => strContains v pat
  | none => false

/-- JavaScript truthiness of an optional string (empty string is falsy). -/
def jsStr (s : Option String) : Option String :=
  match s with
  | some v => if v = "" then none else some v
  | none => none

/-- JavaScript truthiness of an optional numeric id (0 is falsy). -/
def jsNat (n : Option Nat) : Option Nat :=
  match n with
  | some v => if v = 0 then none else some v
  | none => none

/-- JavaScript's `Number.MAX_SAFE_INTEGER`. -/
def maxSafeInteger : Int := 9007199254740991

/-- Ascending comparison on a nullable sort key with Postgres default null
placement (`ASC NULLS LAST`). -/
def optAscLe {K : Type} [LE K] [DecidableRel (α := K) (· ≤ ·)] :
    Option K → Option K → Bool
  | none, none => true
  | none, some _ => false
  | some _, none => true
  | some a, some b => decide (a ≤ b)

/-- Comparison used by `ORDER BY`: descending order is the reverse of the
ascending order, which also realises `DESC NULLS FIRST`. -/
def optKeyLe {K : Type} [LE K] [DecidableRel (α := K) (· ≤ ·)]
    (descending : Bool) (x y : Option K) : Bool :=
  if descending then optAscLe y x else optAscLe x y

/-- Conjunction of a list of boolean predicates, as drizzle's `and(...)`. -/
def allPreds {α : Type} (ps : List (α → Bool)) : α → Bool :=
  fun x => ps.all fun p => p x

/-- A conditionally pushed filter: models `if (x) conditions.push(p)` where the
pushed predicate depends on the present value. -/
def condList {β α : Type} (o : Option β) (f : β → α → Bool) : List (α → Bool) :=
  match o with
  | some v => [f v]
  | none => []

/-- Insert into a sorted list, before the first element not below the inserted
one.  Together with `sortRows` this is a stable sort by structural recursion
(so that concrete executions reduce inside the kernel). -/
def insertRow {α : Type} (le : α → α → Bool) (a : α) : List α → List α
  | [] => [a]
  | b :: l => if le a b then a :: b :: l else b :: insertRow le a l

/-- Stable sort modelling `ORDER BY` (and JavaScript's stable `Array.sort`):
ties keep their original relative order. -/
def sortRows {α : Type} (le : α → α → Bool) : List α → List α
  | [] => []
  | a :: l => insertRow le a (sortRows le l)

/-- Lexicographic string comparison used when modelling `ORDER BY` on a text
column. -/
def strLe (a b : String) : Bool := a == b || decide (a < b)

/-- SQL sort direction. -/
inductive SqlOrder
  | asc
  | desc
deriving Repr, DecidableEq

/-!
## The `src/modules/tasker/tasker.service.ts` generation (`TaskerService`)

This module generation filters skills by `categoryId`/`categorySlug`, has no
geographic filtering, and builds its primary-key search query with the drizzle
dynamic builder.
-/

namespace ModulesTasker

/-- Row of the `taskers` table (fields read by the service methods;
`averageRating`, `totalReviews` and the text columns are nullable as in the
schema). -/
structure Tasker where
  id : Nat
  userId : Nat
  headline : Option String := none
  bio : Option String := none
  locationId : Option Nat := none
  averageRating : Option ℚ := none
  totalReviews : Option Nat := none
  totalTasksCompleted : Option Nat := none
  responseTime : Option Nat := none
  backgroundChecked : Bool := false
  identityVerified : Bool := false
  isElite : Bool := false
  isActive : Bool := true
deriving Repr

/-- Row of the `tasker_skills` table. -/
structure TaskerSkill where
  id : Nat
  taskerId : Nat
  categoryId : Nat
  hourlyRate : Int
  isActive : Bool := true
deriving Repr, DecidableEq

/-- Row of the `categories` table. -/
structure Category where
  id : Nat
  name : String
  slug : String
deriving Repr, DecidableEq

/-- Row of the `tasker_portfolio` table. -/
structure PortfolioItem where
  id : Nat
  taskerId : Nat
  title : String := ""
  displayOrder : Nat := 0
deriving Repr, DecidableEq

/-- The relational store visible to this service. -/
structure DB where
  taskers : List Tasker := []
  taskerSkills : List TaskerSkill := []
  categories : List Category := []
  taskerPortfolio : List PortfolioItem := []
deriving Repr

/-- The `sort` union type of `TaskerSearchParams`. -/
inductive SortKey
  | rating
  | completions
  | rate
  | responseTime
deriving Repr, DecidableEq

/-- `TaskerSearchParams`; absent optional parameters are `none`, and the
destructuring defaults of `findAll` are the field defaults. -/
structure SearchParams where
  query : Option String := none
  categoryId : Option Nat := none
  categorySlug : Option String := none
  locationId : Option Nat := none
  minRate : Option Int := none
  maxRate : Option Int := none
  minRating : Option ℚ := none
  isElite : Option Bool := none
  isBackgroundChecked : Option Bool := none
  isIdentityVerified : Option Bool := none
  sort : SortKey := .rating
  order : SqlOrder := .desc
  page : Int := 1
  limit : Int := 20
  includeInactive : Bool := false
deriving Repr

/-- A row of the primary-key query: the base `taskers` row, plus the joined
`tasker_skills`/`categories` pair when the two inner joins are in effect. -/
abbrev Row := Tasker × Option (TaskerSkill × Category)

/-- The active-only condition pushed when `includeInactive` is false. -/
def activeCond : Tasker → Bool := fun t => t.isActive

/-- The `taskerConditions` array built by `findAll`, in source push order. -/
def taskerConds (o : SearchParams) : List (Tasker → Bool) :=
  (if o.includeInactive then [] else [activeCond]) ++
  condList (jsStr o.query) (fun q t => likeOpt t.headline q || likeOpt t.bio q) ++
  condList (jsNat o.locationId) (fun lid t => t.locationId == some lid) ++
  condList o.minRating (fun m t =>
    match t.averageRating with
    | some a => decide (m ≤ a)
    | none => false) ++
  condList o.isElite (fun b t => t.isElite == b) ++
  condList o.isBackgroundChecked (fun b t => t.backgroundChecked == b) ++
  condList o.isIdentityVerified (fun b t => t.identityVerified == b)

/-- The rate-range condition (`between(hourlyRate, minRate ?? 0,
maxRate ?? Number.MAX_SAFE_INTEGER)`). -/
def rateCond (o : SearchParams) : Row → Bool := fun r =>
  r.2.any fun sc =>
    decide (o.minRate.getD 0 ≤ sc.1.hourlyRate) &&
    decide (sc.1.hourlyRate ≤ o.maxRate.getD maxSafeInteger)

/-- The `skillConditions` array (predicates over the joined row). -/
def skillConds (o : SearchParams) : List (Row → Bool) :=
  condList (jsNat o.categoryId) (fun cid r => r.2.any fun sc => sc.1.categoryId == cid) ++
  condList (jsStr o.categorySlug) (fun slug r => r.2.any fun sc => sc.2.slug == slug) ++
  (if o.minRate.isSome || o.maxRate.isSome then [rateCond o] else [])

/-- Guard of the skill/rate filter branch of `findAll`. -/
def hasSkillFilters (o : SearchParams) : Bool :=
  (jsNat o.categoryId).isSome || (jsStr o.categorySlug).isSome ||
    o.minRate.isSome || o.maxRate.isSome

/-- Configuration of the drizzle dynamic builder for the primary-key query. -/
structure IdQuery where
  joinSkills : Bool
  whereClause : Option (Row → Bool)
  sort : SortKey
  order : SqlOrder
  limitVal : Int
  offsetVal : Int

/-- Builds `taskerIdsQuery` exactly as `findAll` does.  The base query sets
limit, offset and order-by; the skill branch adds the two inner joins and a
`where(and(...skillConditions))`; afterwards, when `taskerConditions` is
nonempty, a second `where(and(...taskerConditions))` call is made.  Drizzle's
`where` assigns the builder's single where slot, so that second call replaces
the skill conditions. -/
def buildIdQuery (o : SearchParams) : IdQuery :=
  let base : IdQuery :=
    { joinSkills := false
      whereClause := none
      sort := o.sort
      order := o.order
      limitVal := o.limit
      offsetVal := (o.page - 1) * o.limit }
  let q1 :=
    if hasSkillFilters o then
      { base with joinSkills := true, whereClause := some (allPreds (skillConds o)) }
    else base
  if (taskerConds o).length > 0 then
    { q1 with whereClause := some fun r => (taskerConds o).all fun p => p r.1 }
  else q1

/-- The row set produced by `FROM taskers INNER JOIN tasker_skills ON
tasker_skills.taskerId = taskers.id INNER JOIN categories ON
tasker_skills.categoryId = categories.id`. -/
def joinRows (db : DB) : List Row :=
  db.taskers.flatMap fun t =>
    (db.taskerSkills.filter fun s => s.taskerId == t.id).flatMap fun s =>
      (db.categories.filter fun c => s.categoryId == c.id).map fun c =>
        (t, some (s, c))

/-- The `FROM` clause of the primary-key query, with or without the joins. -/
def baseRows (db : DB) (q : IdQuery) : List Row :=
  if q.joinSkills then joinRows db else db.taskers.map fun t => (t, none)

/-- The sort column selected by `sortFieldMap`, as a nullable key on the row
(numeric keys are compared in `ℚ`). -/
def sortVal : SortKey → Row → Option ℚ
  | .rating, r => r.1.averageRating
  | .completions, r => r.1.totalTasksCompleted.map fun n => (n : ℚ)
  | .responseTime, r => r.1.responseTime.map fun n => (n : ℚ)
  | .rate, r => r.2.map fun sc => (sc.1.hourlyRate : ℚ)

/-- Executes the primary-key query: join, filter by the (single) where clause,
order, paginate, and project the tasker primary key. -/
def execIdQuery (db : DB) (q : IdQuery) : List Nat :=
  let rows := baseRows db q
  let rows :=
    match q.whereClause with
    | some p => rows.filter p
    | none => rows
  let rows := sortRows (fun a b =>
    optKeyLe (q.order == SqlOrder.desc) (sortVal q.sort a) (sortVal q.sort b)) rows
  let rows := (rows.drop q.offsetVal.toNat).take q.limitVal.toNat
  rows.map fun r => r.1.id

/-- A hydrated skill row: the `tasker_skills` row with the left-joined
category's name and slug. -/
structure SkillWithCategory where
  skill : TaskerSkill
  categoryName : Option String
  categorySlug : Option String
deriving Repr, DecidableEq

/-- `TaskerWithRelations`: a tasker together with its hydrated children. -/
structure TaskerWithRelations where
  tasker : Tasker
  skills : List SkillWithCategory
  portfolioItems : List PortfolioItem
deriving Repr

/-- Result of `findAll` plus the number of queries the method issued after the
primary-key query (full-row re-fetch, skills fetch, portfolio fetch). -/
structure FindAllOutcome where
  results : List TaskerWithRelations
  laterQueries : Nat
deriving Repr

/-- `TaskerService.findAll`: run the primary-key query; on an empty key set
return immediately; otherwise re-fetch the full rows, batch-fetch active
skills (left-joining category names) and portfolio items (ordered by
`displayOrder` ascending), and reassemble in the key page's order. -/
def findAll (db : DB) (o : SearchParams) : FindAllOutcome :=
  let filteredTaskerIds := execIdQuery db (buildIdQuery o)
  if filteredTaskerIds = [] then
    { results := [], laterQueries := 0 }
  else
    let taskersResult := db.taskers.filter fun t => filteredTaskerIds.contains t.id
    let skillsResult :=
      (db.taskerSkills.filter fun s =>
          filteredTaskerIds.contains s.taskerId && s.isActive).map fun s =>
        let category := db.categories.find? fun c => s.categoryId == c.id
        { skill := s
          categoryName := category.map (·.name)
          categorySlug := category.map (·.slug) : SkillWithCategory }
    let portfolioItems :=
      sortRows (fun a b => decide (a.displayOrder ≤ b.displayOrder))
        (db.taskerPortfolio.filter fun i => filteredTaskerIds.contains i.taskerId)
    { results :=
        filteredTaskerIds.filterMap fun i =>
          (taskersResult.find? fun t => t.id == i).map fun t =>
            { tasker := t
              skills := skillsResult.filter fun s => s.skill.taskerId == i
              portfolioItems := portfolioItems.filter fun p => p.taskerId == i }
      laterQueries := 3 }

/-- `TaskerService.updateRating`: read the tasker, recompute the rolling
average and review count, and persist both; absent id gives `none`. -/
def updateRating (db : DB) (id : Nat) (rating : ℚ) : Option (Tasker × DB) :=
  match db.taskers.find? fun t => t.id == id with
  | none => none
  | some tasker =>
    let totalReviews : Nat := tasker.totalReviews.getD 0 + 1
    let currentRating : ℚ := tasker.averageRating.getD 0
    let newRating : ℚ :=
      (currentRating * ((totalReviews : ℚ) - 1) + rating) / (totalReviews : ℚ)
    let setFields := fun t : Tasker =>
      if t.id == id then
        { t with averageRating := some newRating, totalReviews := some totalReviews }
      else t
    some
      ({ tasker with averageRating := some newRating, totalReviews := some totalReviews },
        { db with taskers := db.taskers.map setFields })

end ModulesTasker

/-!
## The `part_007` generation (`TaskService.findAll`, service/location joins)

In this generation the inactive-row exclusion is commented out in the source:
the `includeInactive` parameter exists on the search-params interface but no
`isActive` condition is ever pushed.  Pagination floors `page` and `limit` at
1 but does not clamp `limit` from above.
-/

namespace Part007Task

/-- Row of the `tasks` table (fields read by this generation). -/
structure Task where
  id : Nat
  name : String
  description : Option String := none
  shortDescription : Option String := none
  taskerId : Nat := 0
  serviceId : Option Nat := none
  locationId : Option Nat := none
  createdAt : Nat := 0
  isActive : Bool := true
deriving Repr, DecidableEq

/-- Row of the `services` table. -/
structure Service where
  id : Nat
  name : String := ""
  slug : String := ""
deriving Repr, DecidableEq

/-- Row of the `locations` table. -/
structure Location where
  id : Nat
deriving Repr, DecidableEq

/-- Row of the `task_questions` table. -/
structure Question where
  id : Nat
  taskId : Nat
  question : String := ""
  displayOrder : Nat := 0
deriving Repr, DecidableEq

/-- Row of the `task_faqs` table. -/
structure Faq where
  id : Nat
  taskId : Nat
  question : String := ""
  answer : String := ""
  displayOrder : Nat := 0
deriving Repr, DecidableEq

/-- The relational store visible to this service. -/
structure DB where
  tasks : List Task := []
  services : List Service := []
  locations : List Location := []
  taskQuestions : List Question := []
  taskFaqs : List Faq := []
deriving Repr

/-- The `sort` union type of this generation's `TaskSearchParams`. -/
inductive SortKey
  | name
  | rate
  | rating
  | createdAt
  | distance
deriving Repr, DecidableEq

/-- `TaskSearchParams` of this generation. -/
structure SearchParams where
  query : Option String := none
  serviceId : Option Nat := none
  serviceSlug : Option String := none
  locationId : Option Nat := none
  sort : SortKey := .createdAt
  order : SqlOrder := .desc
  page : Int := 1
  limit : Int := 20
  includeInactive : Bool := false
deriving Repr

/-- `Math.max(page, 1)`. -/
def validPage (page : Int) : Int := max page 1

/-- `Math.max(limit, 1)`; note there is no upper clamp in this generation. -/
def validLimit (limit : Int) : Int := max limit 1

/-- A row of the search query: the task with its two left-joined rows. -/
abbrev Row := Task × Option Service × Option Location

/-- The `conditions` array, in source push order.  The
`if (!includeInactive) conditions.push(eq(tasks.isActive, true))` line is
commented out in the source, so no active-row condition is ever present. -/
def conds (o : SearchParams) : List (Row → Bool) :=
  condList (jsStr o.query) (fun q r =>
    strContains r.1.name q || likeOpt r.1.description q ||
      likeOpt r.1.shortDescription q) ++
  condList (jsNat o.serviceId) (fun sid r => r.1.serviceId == some sid) ++
  condList (jsStr o.serviceSlug) (fun slug r => r.2.1.any fun s => s.slug == slug) ++
  condList (jsNat o.locationId) (fun lid r => r.1.locationId == some lid)

/-- `FROM tasks LEFT JOIN services ... LEFT JOIN locations ...`. -/
def rows (db : DB) : List Row :=
  db.tasks.map fun t =>
    (t, db.services.find? fun s => t.serviceId == some s.id,
      db.locations.find? fun l => t.locationId == some l.id)

/-- Comparator for the order-by clause: `name` sorts on the task name, every
other sort value falls back to `createdAt`. -/
def rowLe (o : SearchParams) (a b : Row) : Bool :=
  match o.sort with
  | .name =>
    if o.order == SqlOrder.desc then strLe b.1.name a.1.name
    else strLe a.1.name b.1.name
  | _ =>
    if o.order == SqlOrder.desc then decide (b.1.createdAt ≤ a.1.createdAt)
    else decide (a.1.createdAt ≤ b.1.createdAt)

/-- `TaskWithRelations` of this generation. -/
structure TaskWithRelations where
  task : Task
  service : Option Service
  location : Option Location
  questions : List Question
  faqs : List Faq
deriving Repr, DecidableEq

/-- `TaskService.findAll` of the `part_007` generation: single-query search
over the joined rows, then batch hydration of questions and FAQs (fetched
without an order-by in this generation). -/
def findAll (db : DB) (o : SearchParams) : List TaskWithRelations :=
  let cs := conds o
  let rs := rows db
  let rs := if cs.length > 0 then rs.filter (allPreds cs) else rs
  let rs := sortRows (rowLe o) rs
  let vl := validLimit o.limit
  let vp := validPage o.page
  let rs := (rs.drop ((vp - 1) * vl).toNat).take vl.toNat
  let base := rs.map fun r =>
    { task := r.1
      service := r.2.1
      location := r.2.2
      questions := []
      faqs := [] : TaskWithRelations }
  let taskIds := base.map fun t => t.task.id
  if taskIds.length > 0 then
    let questions := db.taskQuestions.filter fun q => taskIds.contains q.taskId
    let faqs := db.taskFaqs.filter fun f => taskIds.contains f.taskId
    base.map fun t =>
      { t with
        questions := questions.filter fun q => q.taskId == t.task.id
        faqs := faqs.filter fun f => f.taskId == t.task.id }
  else base

end Part007Task

/-!
## Pagination normalization of the `part_006` tasker generation

The geo-enabled `TaskerService.findAll` of `part_006` validates its pagination
parameters before building the query (source lines 83-86); these definitions
embed that prelude.
-/

namespace Part006Tasker

/-- `Math.max(1, page)`. -/
def validatedPage (page : Int) : Int := max 1 page

/-- `Math.min(Math.max(1, limit), 100)`. -/
def validatedLimit (limit : Int) : Int := min (max 1 limit) 100

/-- `offset = (validatedPage - 1) * validatedLimit`. -/
def pageOffset (page limit : Int) : Int :=
  (validatedPage page - 1) * validatedLimit limit

end Part006Tasker

/-!
## The `part_025` generation (`TaskService.findAll`, category vocabulary)

This generation executes its search query with the conditions accumulated so
far, and only afterwards pushes the location conditions and the Haversine
radius predicate onto the (already consumed) conditions array; those late
pushes have no effect on the result.  Tasks are left-joined to locations, so a
task with no location row is kept, not dropped.
-/

namespace Part025Task

/-- Row of the `tasks` table (fields read by this generation). -/
structure Task where
  id : Nat
  name : String
  description : Option String := none
  shortDescription : Option String := none
  categoryId : Option Nat := none
  locationId : Option Nat := none
  baseHourlyRate : Option Int := none
  tags : List String := []
  isFeatured : Bool := false
  isPopular : Bool := false
  averageRating : Option ℚ := none
  createdAt : Nat := 0
  isActive : Bool := true
deriving Repr

/-- Row of the `categories` table. -/
structure Category where
  id : Nat
  name : String
  slug : String
deriving Repr, DecidableEq

/-- Row of the `locations` table; coordinates are only referenced by the dead
post-execution predicates. -/
structure Location where
  id : Nat
  city : Option String := none
  state : Option String := none
  latitude : Option ℚ := none
  longitude : Option ℚ := none
deriving Repr

/-- Row of the `task_questions` table. -/
structure Question where
  id : Nat
  taskId : Nat
  question : String := ""
  displayOrder : Nat := 0
deriving Repr, DecidableEq

/-- Row of the `task_faqs` table. -/
structure Faq where
  id : Nat
  taskId : Nat
  question : String := ""
  answer : String := ""
  displayOrder : Nat := 0
deriving Repr, DecidableEq

/-- The relational store visible to this service. -/
structure DB where
  tasks : List Task := []
  categories : List Category := []
  locations : List Location := []
  taskQuestions : List Question := []
  taskFaqs : List Faq := []
deriving Repr

/-- The `sort` union type of this generation's `TaskSearchParams`. -/
inductive SortKey
  | name
  | rate
  | rating
  | createdAt
  | distance
deriving Repr, DecidableEq

/-- `TaskSearchParams` of this generation, including the geographic filter
parameters. -/
structure SearchParams where
  query : Option String := none
  categoryId : Option Nat := none
  categorySlug : Option String := none
  minRate : Option Int := none
  maxRate : Option Int := none
  tags : List String := []
  isFeatured : Option Bool := none
  isPopular : Option Bool := none
  locationId : Option Nat := none
  city : Option String := none
  state : Option String := none
  country : Option String := none
  postalCode : Option String := none
  radius : Option ℚ := none
  latitude : Option ℚ := none
  longitude : Option ℚ := none
  sort : SortKey := .createdAt
  order : SqlOrder := .desc
  page : Int := 1
  limit : Int := 20
  includeInactive : Bool := false
deriving Repr

/-- A row of the search query: task, left-joined category, left-joined
location. -/
abbrev Row := Task × Option Category × Option Location

/-- The three-way rate-range condition of this generation. -/
def rateConds (o : SearchParams) : List (Row → Bool) :=
  match o.minRate, o.maxRate with
  | some lo, some hi =>
    [fun r => r.1.baseHourlyRate.any fun x => decide (lo ≤ x) && decide (x ≤ hi)]
  | some lo, none => [fun r => r.1.baseHourlyRate.any fun x => decide (lo ≤ x)]
  | none, some hi => [fun r => r.1.baseHourlyRate.any fun x => decide (x ≤ hi)]
  | none, none => []

/-- The `conditions` array as populated before the query executes, in source
push order.  The jsonb `?&` tags predicate receives the single SQL array
element `tags.join(",")`, which is what the condition tests for. -/
def conds (o : SearchParams) : List (Row → Bool) :=
  (if o.includeInactive then [] else [fun r => r.1.isActive]) ++
  condList (jsStr o.query) (fun q r =>
    strContains r.1.name q || likeOpt r.1.description q ||
      likeOpt r.1.shortDescription q) ++
  condList (jsNat o.categoryId) (fun cid r => r.1.categoryId == some cid) ++
  condList (jsStr o.categorySlug) (fun slug r => r.2.1.any fun c => c.slug == slug) ++
  rateConds o ++
  (if o.tags.length > 0 then
    [fun r => r.1.tags.contains (String.intercalate "," o.tags)]
   else []) ++
  condList o.isFeatured (fun b r => r.1.isFeatured == b) ++
  condList o.isPopular (fun b r => r.1.isPopular == b)

/-- Comparator for the order-by clause of this generation. -/
def rowLe (o : SearchParams) (a b : Row) : Bool :=
  let d := o.order == SqlOrder.desc
  match o.sort with
  | .name => if d then strLe b.1.name a.1.name else strLe a.1.name b.1.name
  | .rate => optKeyLe d a.1.baseHourlyRate b.1.baseHourlyRate
  | .rating => optKeyLe d a.1.averageRating b.1.averageRating
  | _ =>
    if d then decide (b.1.createdAt ≤ a.1.createdAt)
    else decide (a.1.createdAt ≤ b.1.createdAt)

/-- `TaskWithRelations` of this generation.  The transform step attaches only
the category (the location is never copied onto the result). -/
structure TaskWithRelations where
  task : Task
  category : Option Category
  questions : List Question
  faqs : List Faq
deriving Repr

/-- `TaskService.findAll` of the `part_025` generation.  The query executes
with the conditions pushed so far; source lines 173-198 then push the
location conditions and the Haversine radius predicate onto the already
consumed conditions array, so they have no effect and are not part of the
executed query.  Questions and FAQs are batch-fetched ordered by
`displayOrder` and grouped by task. -/
def findAll (db : DB) (o : SearchParams) : List TaskWithRelations :=
  let conditions := conds o
  let results :=
    let rs := db.tasks.map fun t =>
      (t, db.categories.find? fun c => t.categoryId == some c.id,
        db.locations.find? fun l => t.locationId == some l.id)
    let rs := if conditions.length > 0 then rs.filter (allPreds conditions) else rs
    let rs := sortRows (rowLe o) rs
    (rs.drop ((o.page - 1) * o.limit).toNat).take o.limit.toNat
  let base := results.map fun r =>
    { task := r.1
      category := r.2.1
      questions := []
      faqs := [] : TaskWithRelations }
  let taskIds := base.map fun t => t.task.id
  if taskIds.length > 0 then
    let questions := sortRows (fun a b => decide (a.displayOrder ≤ b.displayOrder))
      (db.taskQuestions.filter fun q => taskIds.contains q.taskId)
    let faqs := sortRows (fun a b => decide (a.displayOrder ≤ b.displayOrder))
      (db.taskFaqs.filter fun f => taskIds.contains f.taskId)
    base.map fun t =>
      { t with
        questions := questions.filter fun q => q.taskId == t.task.id
        faqs := faqs.filter fun f => f.taskId == t.task.id }
  else base

end Part025Task

/-!
## The `part_020` generation (`TaskerService.findAll`, two-query strategy)

This generation first filters the skills table for matching tasker ids (with an
explicit early return when a `categorySlug` matches no category row), then
queries the taskers table, hydrates children, and finally post-processes
`sort = "rate"` by re-sorting the hydrated collection in memory by the minimum
active-skill hourly rate.
-/

namespace Part020Tasker

/-- Taskers, skills, categories and portfolio rows are shared with the modules
generation (same schema import in the source). -/
abbrev Tasker := ModulesTasker.Tasker

/-- Skill row alias. -/
abbrev TaskerSkill := ModulesTasker.TaskerSkill

/-- Category row alias. -/
abbrev Category := ModulesTasker.Category

/-- Portfolio row alias. -/
abbrev PortfolioItem := ModulesTasker.PortfolioItem

/-- Search parameters are the same interface as the modules generation. -/
abbrev SearchParams := ModulesTasker.SearchParams

/-- Row of the `users` table (fields used by the hydration step). -/
structure User where
  id : Nat
  email : String := ""
deriving Repr, DecidableEq

/-- The relational store visible to this service. -/
structure DB where
  taskers : List Tasker := []
  taskerSkills : List TaskerSkill := []
  categories : List Category := []
  taskerPortfolio : List PortfolioItem := []
  users : List User := []
deriving Repr

/-- A hydrated tasker of this generation (it also attaches the user row). -/
structure TaskerWithRelations where
  tasker : Tasker
  skills : List ModulesTasker.SkillWithCategory
  portfolioItems : List PortfolioItem
  user : Option User
deriving Repr

/-- Result of `findAll` plus the total number of queries the call issued. -/
structure Outcome where
  results : List TaskerWithRelations
  totalQueries : Nat
deriving Repr

/-- The skill-table conditions of step 2, with the category id the slug
resolved to (when a slug was given). -/
def skillCondsWith (o : SearchParams) (slugCatId : Option Nat) :
    List (TaskerSkill → Bool) :=
  condList (jsNat o.categoryId) (fun cid s => s.categoryId == cid) ++
  condList slugCatId (fun cid s => s.categoryId == cid) ++
  (match o.minRate, o.maxRate with
   | some lo, some hi => [fun s => decide (lo ≤ s.hourlyRate) && decide (s.hourlyRate ≤ hi)]
   | some lo, none => [fun s => decide (lo ≤ s.hourlyRate)]
   | none, some hi => [fun s => decide (s.hourlyRate ≤ hi)]
   | none, none => [])

/-- Sort key of step 3 (a nullable numeric column of the taskers table). -/
def taskerKey : ModulesTasker.SortKey → Tasker → Option ℚ
  | .rating, t => t.averageRating
  | .completions, t => t.totalTasksCompleted.map fun n => (n : ℚ)
  | .responseTime, t => t.responseTime.map fun n => (n : ℚ)
  | .rate, t => t.averageRating

/-- The in-memory comparator of the `sort = "rate"` special case:
`Math.min(...rates)` over the hydrated (active) skills, `Infinity` when a
tasker has no skills, ascending or descending by `order`. -/
def minRateLe : Option Int → Option Int → Bool
  | none, none => true
  | some _, none => true
  | none, some _ => false
  | some a, some b => decide (a ≤ b)

/-- Minimum hydrated hourly rate of a result row (`none` plays `Infinity`). -/
def minRate (r : TaskerWithRelations) : Option Int :=
  (r.skills.map fun s => s.skill.hourlyRate).min?

/-- The taskers the primary query returns, in query order: filter by the
(single) where clause, order (no order-by for `sort = "rate"`), paginate. -/
def primaryRows (db : DB) (o : SearchParams)
    (taskerWhere : Option (Tasker → Bool)) : List Tasker :=
  let ts := match taskerWhere with
    | some p => db.taskers.filter p
    | none => db.taskers
  let ts := match o.sort with
    | .rate => ts
    | k => sortRows (fun a b =>
        optKeyLe (o.order == SqlOrder.desc) (taskerKey k a) (taskerKey k b)) ts
  (ts.drop ((o.page - 1) * o.limit).toNat).take o.limit.toNat

/-- Steps 6-8 of `findAll`: batch-fetch active skills (with left-joined
category name/slug), portfolio items (ordered by `displayOrder` ascending) and
users for the page of taskers, and attach each child to its parent. -/
def hydrate (db : DB) (taskersResult : List Tasker) : List TaskerWithRelations :=
  let filteredTaskerIds := taskersResult.map fun t => t.id
  let skillsResult :=
    (db.taskerSkills.filter fun s =>
        filteredTaskerIds.contains s.taskerId && s.isActive).map fun s =>
      let cat := db.categories.find? fun c => s.categoryId == c.id
      { skill := s
        categoryName := cat.map (·.name)
        categorySlug := cat.map (·.slug) : ModulesTasker.SkillWithCategory }
  let portfolioItems :=
    sortRows (fun a b => decide (a.displayOrder ≤ b.displayOrder))
      (db.taskerPortfolio.filter fun i => filteredTaskerIds.contains i.taskerId)
  let userIds := taskersResult.map fun t => t.userId
  let usersResult := db.users.filter fun u => userIds.contains u.id
  taskersResult.map fun t =>
    { tasker := t
      skills := skillsResult.filter fun s => s.skill.taskerId == t.id
      portfolioItems := portfolioItems.filter fun p => p.taskerId == t.id
      user := usersResult.find? fun u => u.id == t.userId : TaskerWithRelations }

/-- Steps 3-9 of `findAll`: sort (except for `rate`, which has no order-by),
paginate, execute, hydrate skills/portfolio/users, and reassemble; the
`sort = "rate"` case re-sorts the hydrated collection in memory instead of
preserving the page order. -/
def runMain (db : DB) (o : SearchParams) (taskerWhere : Option (Tasker → Bool))
    (qcount : Nat) : Outcome :=
  let taskersResult := primaryRows db o taskerWhere
  let qcount := qcount + 1
  if taskersResult.length = 0 then { results := [], totalQueries := qcount }
  else
    let hydrated := hydrate db taskersResult
    let qcount := qcount + 3
    if o.sort == ModulesTasker.SortKey.rate then
      { results := sortRows (fun a b =>
          if o.order == SqlOrder.asc then minRateLe (minRate a) (minRate b)
          else minRateLe (minRate b) (minRate a)) hydrated
        totalQueries := qcount }
    else
      { results := (taskersResult.map fun t => t.id).filterMap fun i =>
          hydrated.find? fun h => h.tasker.id == i
        totalQueries := qcount }

/-- Step 2 when skill filters are present: the skills query starts from
`where(isActive = true)`, but a second `where(and(...skillConditions))` call
replaces that condition (drizzle's `where` assigns).  The matching tasker ids
then become the taskers query's where clause by yet another `where` call,
which likewise replaces the direct tasker conditions of step 1. -/
def runWithSkills (db : DB) (o : SearchParams) (slugCatId : Option Nat)
    (qcount : Nat) : Outcome :=
  let scs := skillCondsWith o slugCatId
  let skillsWhere : TaskerSkill → Bool :=
    if scs.length > 0 then allPreds scs else fun s => s.isActive
  let taskerIdsWithSkills := (db.taskerSkills.filter skillsWhere).map fun s => s.taskerId
  let qcount := qcount + 1
  if taskerIdsWithSkills = [] then { results := [], totalQueries := qcount }
  else
    runMain db o (some fun t => taskerIdsWithSkills.contains t.id) qcount

/-- `TaskerService.findAll` of the `part_020` generation. -/
def findAll (db : DB) (o : SearchParams) : Outcome :=
  let tcs := ModulesTasker.taskerConds o
  let where₀ : Option (Tasker → Bool) :=
    if tcs.length > 0 then some (allPreds tcs) else none
  if ModulesTasker.hasSkillFilters o then
    match jsStr o.categorySlug with
    | some slug =>
      match db.categories.find? fun c => c.slug == slug with
      | none => { results := [], totalQueries := 1 }
      | some cat => runWithSkills db o (some cat.id) 1
    | none => runWithSkills db o none 0
  else
    runMain db o where₀ 0

/-- The where clause step 2 installs on the taskers query when skill filters
are present and the slug (if any) resolved. -/
def skillsTaskerWhere (db : DB) (o : SearchParams) (slugCatId : Option Nat) :
    Tasker → Bool :=
  let scs := skillCondsWith o slugCatId
  let skillsWhere : TaskerSkill → Bool :=
    if scs.length > 0 then allPreds scs else fun s => s.isActive
  fun t => ((db.taskerSkills.filter skillsWhere).map fun s => s.taskerId).contains t.id

/-- The ordered primary-key page the primary (taskers) query produces (empty
when the call returns before that query runs), for stating the
hydration-order property. -/
def pageIds (db : DB) (o : SearchParams) : List Nat :=
  let tcs := ModulesTasker.taskerConds o
  let where₀ : Option (Tasker → Bool) :=
    if tcs.length > 0 then some (allPreds tcs) else none
  if ModulesTasker.hasSkillFilters o then
    match jsStr o.categorySlug with
    | some slug =>
      match db.categories.find? fun c => c.slug == slug with
      | none => []
      | some cat =>
        (primaryRows db o (some (skillsTaskerWhere db o (some cat.id)))).map fun t => t.id
    | none =>
      (primaryRows db o (some (skillsTaskerWhere db o none))).map fun t => t.id
  else (primaryRows db o where₀).map fun t => t.id

end Part020Tasker

/-!
## `TaskerService.addSkill` of the `part_006` generation
-/

namespace Part006Skill

/-- Row of the `tasker_skills` table (service vocabulary; nullable columns as
in the schema). -/
structure TaskerSkill where
  id : Nat
  taskerId : Nat
  serviceId : Nat
  hourlyRate : Int
  quickPitch : Option String := none
  experience : Option String := none
  experienceYears : Option Nat := none
  hasEquipment : Option Bool := none
  equipmentDescription : Option String := none
  isQuickAssign : Option Bool := none
  isActive : Bool := true
deriving Repr, DecidableEq

/-- The `skillData` argument of `addSkill` (the insertable model without
`taskerId` and timestamps; `isActive` is insertable and defaults to true). -/
structure SkillInput where
  serviceId : Nat
  hourlyRate : Int
  quickPitch : Option String := none
  experience : Option String := none
  experienceYears : Option Nat := none
  hasEquipment : Option Bool := none
  equipmentDescription : Option String := none
  isQuickAssign : Option Bool := none
  isActive : Option Bool := none
deriving Repr

/-- The skills table plus the next serial primary key. -/
structure SkillsDB where
  skills : List TaskerSkill := []
  nextId : Nat := 1
deriving Repr

/-- The update applied to an existing inactive skill row: overwrite the
payload fields and set `isActive` back to true, keeping the primary key. -/
def reactivate (s : TaskerSkill) (d : SkillInput) : TaskerSkill :=
  { s with
    hourlyRate := d.hourlyRate
    quickPitch := d.quickPitch
    experience := d.experience
    experienceYears := d.experienceYears
    hasEquipment := d.hasEquipment
    equipmentDescription := d.equipmentDescription
    isQuickAssign := d.isQuickAssign
    isActive := true }

/-- `TaskerService.addSkill`: look for an existing row for the
(tasker, service) pair; reactivate it when inactive, reject with a conflict
when active, and insert a fresh row only when no row exists. -/
def addSkill (db : SkillsDB) (taskerId : Nat) (d : SkillInput) :
    Except AppError (TaskerSkill × SkillsDB) :=
  match db.skills.find? fun s => s.taskerId == taskerId && s.serviceId == d.serviceId with
  | some existing =>
    if !existing.isActive then
      .ok (reactivate existing d,
        { db with skills := db.skills.map fun s =>
            if s.id == existing.id then reactivate s d else s })
    else
      .error { message := "Tasker already has this skill", status := 400 }
  | none =>
    let newSkill : TaskerSkill :=
      { id := db.nextId
        taskerId := taskerId
        serviceId := d.serviceId
        hourlyRate := d.hourlyRate
        quickPitch := d.quickPitch
        experience := d.experience
        experienceYears := d.experienceYears
        hasEquipment := d.hasEquipment
        equipmentDescription := d.equipmentDescription
        isQuickAssign := d.isQuickAssign
        isActive := d.isActive.getD true }
    .ok (newSkill, { db with skills := db.skills ++ [newSkill], nextId := db.nextId + 1 })

/-- At most one row per (tasker, service) pair. -/
def UniquePerPair (l : List TaskerSkill) : Prop :=
  l.Pairwise fun a b => ¬(a.taskerId = b.taskerId ∧ a.serviceId = b.serviceId)

/-- At most one active row per (tasker, service) pair. -/
def AtMostOneActivePerPair (l : List TaskerSkill) : Prop :=
  l.Pairwise fun a b =>
    a.isActive = true → b.isActive = true →
      ¬(a.taskerId = b.taskerId ∧ a.serviceId = b.serviceId)

end Part006Skill

/-!
## `VerificationService` (status transitions)
-/

namespace VerificationSvc

/-- The `verificationStatuses` union. -/
inductive VStatus
  | pending
  | inReview
  | verified
  | rejected
deriving Repr, DecidableEq, Fintype

/-- The database string for each status, as used in error messages. -/
def VStatus.str : VStatus → String
  | .pending => "pending"
  | .inReview => "in_review"
  | .verified => "verified"
  | .rejected => "rejected"

/-- The `verificationTypes` union. -/
inductive VType
  | bvn
  | nin
  | idCard
  | passport
  | driversLicense
deriving Repr, DecidableEq

/-- Row of the `verifications` table (fields touched by `updateStatus`). -/
structure Verification where
  id : Nat
  taskerId : Nat
  userId : Nat
  type : VType
  status : VStatus := .pending
  verifiedAt : Option Nat := none
  rejectionReason : Option String := none
deriving Repr, DecidableEq

/-- Row of the `verification_logs` table. -/
structure VerificationLog where
  verificationId : Nat
  status : VStatus
  message : String
  performedBy : Option Nat := none
deriving Repr, DecidableEq

/-- Tasker flags touched by the verified-path side effect. -/
structure TaskerFlags where
  id : Nat
  identityVerified : Bool := false
deriving Repr, DecidableEq

/-- The relational store visible to this service. -/
structure DB where
  verifications : List Verification := []
  logs : List VerificationLog := []
  taskers : List TaskerFlags := []
deriving Repr

/-- The options bag of `updateStatus`. -/
structure UpdateOpts where
  message : Option String := none
  performedBy : Option Nat := none
  rejectionReason : Option String := none
deriving Repr

/-- The allowed-transitions table (`validTransitions`). -/
def validTransitions : VStatus → List VStatus
  | .pending => [.inReview, .rejected]
  | .inReview => [.verified, .rejected]
  | .verified => []
  | .rejected => [.pending]

/-- The error message of an invalid transition, naming the current and the
requested status. -/
def transitionMsg (currentStatus newStatus : VStatus) : String :=
  "Invalid status transition from " ++ currentStatus.str ++ " to " ++ newStatus.str

/-- `validateStatusTransition`: throws a status-400 application error whose
message names the current and the requested status when the transition is not
in the table. -/
def validateStatusTransition (currentStatus newStatus : VStatus) :
    Except AppError Unit :=
  if (validTransitions currentStatus).contains newStatus then .ok ()
  else .error { message := transitionMsg currentStatus newStatus, status := 400 }

/-- `VerificationService.updateStatus`: absent id gives the not-found sentinel
(`ok none`); an invalid transition propagates the validation error before any
write; otherwise the status (and `verifiedAt`/`rejectionReason`), a log entry
and, on `verified`, the tasker identity flag are updated in one transaction.
The wall-clock timestamp is passed in as `now`. -/
def updateStatus (db : DB) (id : Nat) (status : VStatus) (opts : UpdateOpts)
    (now : Nat) : Except AppError (Option (Verification × DB)) :=
  match db.verifications.find? fun v => v.id == id with
  | none => .ok none
  | some verification =>
    match validateStatusTransition verification.status status with
    | .error e => .error e
    | .ok _ =>
      let v' :=
        { verification with
          status := status
          verifiedAt :=
            if status = .verified then some now else verification.verifiedAt
          rejectionReason :=
            if status = .rejected then opts.rejectionReason
            else verification.rejectionReason }
      let newLog : VerificationLog :=
        { verificationId := id
          status := status
          message := opts.message.getD ("Status updated to " ++ status.str)
          performedBy := opts.performedBy }
      let taskers' :=
        if status = .verified then
          db.taskers.map fun t =>
            if t.id == verification.taskerId then { t with identityVerified := true }
            else t
        else db.taskers
      .ok (some (v',
        { verifications := db.verifications.map fun w => if w.id == id then v' else w
          logs := db.logs ++ [newLog]
          taskers := taskers' }))

end VerificationSvc

/-!
## `CategoryService` (slug assignment)
-/

namespace CategorySvc

/-- Splits a character list into its space-separated words (helper for the
`slugify` model, written by structural recursion). -/
def wordsAux : List Char → List Char → List (List Char)
  | [], acc => if acc.isEmpty then [] else [acc.reverse]
  | c :: rest, acc =>
    if c = ' ' then
      if acc.isEmpty then wordsAux rest [] else acc.reverse :: wordsAux rest []
    else wordsAux rest (c :: acc)

/-- Joins words with hyphens (helper for the `slugify` model). -/
def joinHyphen : List String → String
  | [] => ""
  | [w] => w
  | w :: rest => w ++ "-" ++ joinHyphen rest

/-- Model of the `slugify` library call with `lower: true, strict: true`:
lowercase, strip characters that are not alphanumeric or spaces, and join the
space-separated words with hyphens. -/
def slugify (name : String) : String :=
  let kept := (name.toList.map Char.toLower).filter fun c => c.isAlphanum || c = ' '
  joinHyphen ((wordsAux kept []).map fun w => String.mk w)

/-- Row of the `service_categories` table. -/
structure ServiceCategory where
  id : Nat
  name : String
  slug : String
  description : Option String := none
  isActive : Bool := true
deriving Repr, DecidableEq

/-- The categories table plus the next serial primary key. -/
structure CatDB where
  cats : List ServiceCategory := []
  nextId : Nat := 1
deriving Repr

/-- `findBySlug`: the first row with the given slug. -/
def findBySlug (db : CatDB) (slug : String) : Option ServiceCategory :=
  db.cats.find? fun c => c.slug == slug

/-- The create payload (`slug` optional; generated from `name` when falsy). -/
structure NewCategoryData where
  name : String
  slug : Option String := none
  description : Option String := none
deriving Repr

/-- The slug a create call uses: the provided one when truthy, otherwise the
slugified name. -/
def createSlug (d : NewCategoryData) : String :=
  match jsStr d.slug with
  | some s => s
  | none => slugify d.name

/-- `CategoryService.create`: generate the slug when not provided, reject a
colliding slug as a conflict, insert otherwise. -/
def create (db : CatDB) (d : NewCategoryData) :
    Except AppError (ServiceCategory × CatDB) :=
  let slug := createSlug d
  match findBySlug db slug with
  | some _ =>
    .error { message := "Category with this slug already exists", status := 400 }
  | none =>
    let c : ServiceCategory :=
      { id := db.nextId, name := d.name, slug := slug, description := d.description }
    .ok (c, { cats := db.cats ++ [c], nextId := db.nextId + 1 })

/-- The update payload (all fields optional). -/
structure UpdateData where
  name : Option String := none
  slug : Option String := none
deriving Repr

/-- Applies the `UPDATE ... SET` of `CategoryService.update` to the stored
row with the given id, returning the updated row. -/
def applySet (db : CatDB) (id : Nat) (name? slug? : Option String) :
    Option (ServiceCategory × CatDB) :=
  (db.cats.find? fun c => c.id == id).map fun c =>
    let c' := { c with name := name?.getD c.name, slug := slug?.getD c.slug }
    (c', { db with cats := db.cats.map fun x => if x.id == id then c' else x })

/-- `CategoryService.update`: an explicitly supplied colliding slug (on a
different row) is a conflict; a slug generated from an updated name that
collides with a different row is disambiguated by appending the entity's own
id; an absent id yields the not-found sentinel. -/
def update (db : CatDB) (id : Nat) (d : UpdateData) :
    Except AppError (Option (ServiceCategory × CatDB)) :=
  match jsStr d.slug with
  | some s =>
    match findBySlug db s with
    | some existing =>
      if existing.id ≠ id then
        .error { message := "Category with this slug already exists", status := 400 }
      else .ok (applySet db id (jsStr d.name) (some s))
    | none => .ok (applySet db id (jsStr d.name) (some s))
  | none =>
    match jsStr d.name with
    | some n =>
      let generated := slugify n
      let finalSlug :=
        match findBySlug db generated with
        | some existing =>
          if existing.id ≠ id then generated ++ "-" ++ toString id else generated
        | none => generated
      .ok (applySet db id (some n) (some finalSlug))
    | none => .ok (applySet db id none none)

end CategorySvc

/-- Well-formedness of the modules tasker store: serial primary keys are
distinct. -/
def ModulesTasker.DB.WF (db : ModulesTasker.DB) : Prop :=
  (db.taskers.map fun t => t.id).Nodup

/-- Well-formedness of the `part_020` tasker store: serial primary keys are
distinct. -/
def Part020Tasker.DB.WF (db : Part020Tasker.DB) : Prop :=
  (db.taskers.map fun t => t.id).Nodup

/-- Store for the claim C1 evaluation: one active tasker whose only skill has
hourly rate 500, and the category row the inner join needs. -/
def c1db : ModulesTasker.DB :=
  { taskers := [{ id := 1, userId := 1 }]
    taskerSkills := [{ id := 1, taskerId := 1, categoryId := 1, hourlyRate := 500 }]
    categories := [{ id := 1, name := "Cleaning", slug := "cleaning" }] }

/-- Search parameters for the claim C1 evaluation: a rate-range filter with no
other explicit filters (so the default active-only tasker condition applies). -/
def c1opts : ModulesTasker.SearchParams := { minRate := some 10, maxRate := some 100 }

/-- Store for the claim C2 evaluation: a single active task with no location
row (`locationId` NULL). -/
def c2db : Part025Task.DB :=
  { tasks := [{ id := 1, name := "Fix sink" }] }

/-- Search parameters for the claim C2 evaluation: latitude, longitude and
radius all present. -/
def c2opts : Part025Task.SearchParams :=
  { latitude := some 0, longitude := some 0, radius := some 5 }

/-- Store for claim C3: two active taskers, the first with an active skill at
rate 50, the second at rate 30 (table order 1 then 2). -/
def c3db : Part020Tasker.DB :=
  { taskers := [{ id := 1, userId := 1 }, { id := 2, userId := 2 }]
    taskerSkills :=
      [{ id := 1, taskerId := 1, categoryId := 1, hourlyRate := 50 },
       { id := 2, taskerId := 2, categoryId := 1, hourlyRate := 30 }] }

/-- Search parameters for the claim C3 counterexample: sort by rate,
ascending. -/
def c3opts : Part020Tasker.SearchParams :=
  { sort := .rate, order := .asc }

/-- Search parameters for the claim C3 witness: a sort the code does not
post-process. -/
def c3wopts : Part020Tasker.SearchParams :=
  { sort := .completions, order := .asc }

/-- The stored tasker of the claim C4 witness (average 4.0 over 3 reviews). -/
def c4tasker : ModulesTasker.Tasker :=
  { id := 1, userId := 1, averageRating := some 4, totalReviews := some 3 }

/-- The fresh tasker of the claim C4 witness (no reviews yet, NULL average). -/
def c4freshTasker : ModulesTasker.Tasker :=
  { id := 2, userId := 2 }

/-- Store for the claim C4 witness. -/
def c4db : ModulesTasker.DB :=
  { taskers := [c4tasker, c4freshTasker] }

/-- The existing soft-deleted skill row of the claim C5 witness. -/
def c5existing : Part006Skill.TaskerSkill :=
  { id := 4, taskerId := 9, serviceId := 2, hourlyRate := 25, isActive := false }

/-- Store for the claim C5 witness. -/
def c5db : Part006Skill.SkillsDB :=
  { skills := [c5existing], nextId := 5 }

/-- The payload of the claim C5 witness. -/
def c5input : Part006Skill.SkillInput :=
  { serviceId := 2, hourlyRate := 40 }

/-- The stored verification of the claim C6 witness. -/
def c6verification : VerificationSvc.Verification :=
  { id := 3, taskerId := 1, userId := 1, type := .bvn, status := .pending }

/-- Store for the claim C6 witness. -/
def c6db : VerificationSvc.DB :=
  { verifications := [c6verification], taskers := [{ id := 1 }] }

/-- The category already owning the `home-cleaning` slug in the C7 witness. -/
def c7homeCleaning : CategorySvc.ServiceCategory :=
  { id := 1, name := "Home Cleaning", slug := "home-cleaning" }

/-- The category (id 7) the C7 witness renames into the collision. -/
def c7garden : CategorySvc.ServiceCategory :=
  { id := 7, name := "Garden Care", slug := "garden-care" }

/-- Store for the claim C7 witness: an existing `home-cleaning` category, and
a second category (id 7) about to be renamed into the collision. -/
def c7db : CategorySvc.CatDB :=
  { cats := [c7homeCleaning, c7garden], nextId := 8 }

/-- The create payload of the claim C7 witness. -/
def c7create : CategorySvc.NewCategoryData := { name := "Home Cleaning" }

/-- The update payload of the claim C7 witness. -/
def c7update : CategorySvc.UpdateData := { name := some "Home Cleaning" }

/-- Store for the claim C8 witness: one active and one inactive tasker. -/
def c8db : ModulesTasker.DB :=
  { taskers := [{ id := 1, userId := 1 }, { id := 2, userId := 2, isActive := false }] }

/-- Store for the claim C8 counterexample: a single inactive task in the
`part_007` generation. -/
def c8taskDb : Part007Task.DB :=
  { tasks := [{ id := 1, name := "Mow lawn", isActive := false }] }

/-- Store for the claim C9 counterexample: an active tasker with an active
skill; the only category's slug is `plumbing`. -/
def c9db : ModulesTasker.DB :=
  { taskers := [{ id := 1, userId := 1 }]
    taskerSkills := [{ id := 1, taskerId := 1, categoryId := 1, hourlyRate := 30 }]
    categories := [{ id := 1, name := "Plumbing", slug := "plumbing" }] }

/-- Search parameters for the claim C9 counterexample: a category slug that
matches no catalog row. -/
def c9opts : ModulesTasker.SearchParams := { categorySlug := some "gardening" }

/-- `part_020` store for the claim C9 witness (no category rows at all). -/
def c9page20db : Part020Tasker.DB :=
  { taskers := [{ id := 1, userId := 1 }]
    taskerSkills := [{ id := 1, taskerId := 1, categoryId := 1, hourlyRate := 30 }] }

/-!
## Helper lemmas about the stable sort and list reassembly
-/

theorem mem_insertRow {α : Type} (le : α → α → Bool) (a x : α) (l : List α) :
    x ∈ insertRow le a l ↔ x = a ∨ x ∈ l := by
  induction l with
  | nil => simp [insertRow]
  | cons b t ih =>
    by_cases h : le a b = true
    · simp only [insertRow, if_pos h]
      simp
    · simp only [insertRow, if_neg h]
      simp [ih]
      tauto

theorem mem_sortRows {α : Type} (le : α → α → Bool) (x : α) (l : List α) :
    x ∈ sortRows le l ↔ x ∈ l := by
  induction l with
  | nil => simp [sortRows]
  | cons a t ih => simp [sortRows, mem_insertRow, ih]

theorem perm_insertRow {α : Type} (le : α → α → Bool) (a : α) (l : List α) :
    List.Perm (insertRow le a l) (a :: l) := by
  induction l with
  | nil => simp [insertRow]
  | cons b t ih =>
    by_cases h : le a b = true
    · simp [insertRow, h]
    · simp only [insertRow, h, if_neg]
      exact List.Perm.trans (List.Perm.cons b ih) (List.Perm.swap a b t)

theorem perm_sortRows {α : Type} (le : α → α → Bool) (l : List α) :
    List.Perm (sortRows le l) l := by
  induction l with
  | nil => simp [sortRows]
  | cons a t ih =>
    exact List.Perm.trans (perm_insertRow le a (sortRows le t)) (List.Perm.cons a ih)

theorem pairwise_insertRow {α : Type} (le : α → α → Bool)
    (htot : ∀ x y, le x y = true ∨ le y x = true)
    (htrans : ∀ x y z, le x y = true → le y z = true → le x z = true)
    (a : α) (l : List α) (hl : List.Pairwise (fun x y => le x y = true) l) :
    List.Pairwise (fun x y => le x y = true) (insertRow le a l) := by
  induction l with
  | nil => simp [insertRow]
  | cons b t ih =>
    rcases List.pairwise_cons.mp hl with ⟨hb, ht⟩
    by_cases h : le a b = true
    · simp only [insertRow, if_pos h]
      refine List.pairwise_cons.mpr ⟨?_, hl⟩
      intro x hx
      rcases List.mem_cons.mp hx with rfl | hx
      · exact h
      · exact htrans a b x h (hb x hx)
    · simp only [insertRow, if_neg h]
      refine List.pairwise_cons.mpr ⟨?_, ih ht⟩
      intro x hx
      rcases (mem_insertRow le a x t).mp hx with hx | hx
      · subst hx
        rcases htot b x with hbx | hxb
        · exact hbx
        · exact absurd hxb h
      · exact hb x hx

theorem pairwise_sortRows {α : Type} (le : α → α → Bool)
    (htot : ∀ x y, le x y = true ∨ le y x = true)
    (htrans : ∀ x y z, le x y = true → le y z = true → le x z = true)
    (l : List α) :
    List.Pairwise (fun x y => le x y = true) (sortRows le l) := by
  induction l with
  | nil => simp [sortRows]
  | cons a t ih => exact pairwise_insertRow le htot htrans a (sortRows le t) ih

/-- Reassembling a list from its own key page by first-match lookup is the
identity when the keys are distinct. -/
theorem reassemble_filterMap {β : Type} (f : β → Nat) (l : List β)
    (h : (l.map f).Nodup) :
    (l.map f).filterMap (fun i => l.find? fun x => f x == i) = l := by
  induction l with
  | nil => rfl
  | cons x t ih =>
    rcases List.nodup_cons.mp h with ⟨hx, ht⟩
    have h1 : (List.find? (fun y => f y == f x) (x :: t)) = some x := by
      simp [List.find?_cons]
    have h2 : ∀ i ∈ t.map f, ((x :: t).find? fun y => f y == i) =
        (t.find? fun y => f y == i) := by
      intro i hi
      have hne : (f x == i) = false :=
        beq_eq_false_iff_ne.mpr fun e => hx (e ▸ hi)
      simp [List.find?_cons, hne]
    simp only [List.map_cons, List.filterMap_cons, h1]
    rw [List.filterMap_congr h2, ih ht]

/-- Claim C1: the spec says every returned row satisfies the conjunction of all
present filters, skill-level and tasker-level together.  The code violates
this: the second `where` call (tasker conditions, always nonempty by the
default active-only filter) replaces the first (skill conditions) on the
drizzle dynamic builder, so with `minRate = 10, maxRate = 100` a tasker whose
only skill costs 500 is still returned. -/
theorem c1_skill_filters_dropped :
    ((ModulesTasker.findAll c1db c1opts).results.map fun r => r.tasker.id) = [1] ∧
    (∀ s ∈ c1db.taskerSkills, ¬(10 ≤ s.hourlyRate ∧ s.hourlyRate ≤ 100)) ∧
    c1opts.minRate = some 10 ∧ c1opts.maxRate = some 100 ∧
    c1opts.includeInactive = false := by
  refine ⟨by decide, by decide, rfl, rfl, rfl⟩

/-- Claim C2: the spec says that with latitude, longitude and radius all
present only candidates whose great-circle distance is within the radius are
returned, and a candidate with no location is dropped.  In the `part_025`
task search the geographic predicates are pushed onto the conditions array
only after the query has executed, and locations are left-joined, so an
active task with no location row at all is still returned. -/
theorem c2_geo_filter_never_applied :
    ((Part025Task.findAll c2db c2opts).map fun r => r.task.id) = [1] ∧
    (∀ t ∈ c2db.tasks, t.locationId = none) ∧
    c2opts.latitude = some 0 ∧ c2opts.longitude = some 0 ∧
    c2opts.radius = some 5 := by
  refine ⟨by decide, by decide, rfl, rfl, rfl⟩

/-- Claim C4: `updateRating` persists exactly the rolling average
`(a * n + r) / (n + 1)` (stored null average and count read as 0) together
with review count `n + 1`, leaves every other tasker row unchanged, and is a
not-found no-op for an absent id; a first rating on a fresh tasker stores
exactly that rating with count 1. -/
theorem c4_rolling_rating_update (db : ModulesTasker.DB) (id : Nat) (r : ℚ) :
    (∀ t, (db.taskers.find? fun x => x.id == id) = some t →
      (ModulesTasker.updateRating db id r).isSome = true ∧
      ∀ t' db', ModulesTasker.updateRating db id r = some (t', db') →
        t'.averageRating =
          some ((t.averageRating.getD 0 * (t.totalReviews.getD 0 : ℚ) + r) /
            ((t.totalReviews.getD 0 : ℚ) + 1)) ∧
        t'.totalReviews = some (t.totalReviews.getD 0 + 1) ∧
        (db'.taskers.map fun x => x.id) = (db.taskers.map fun x => x.id) ∧
        ∀ x ∈ db.taskers, x.id ≠ id → x ∈ db'.taskers) ∧
    (∀ t, (db.taskers.find? fun x => x.id == id) = some t →
      (t.averageRating = none ∨ t.averageRating = some 0) →
      t.totalReviews = none →
      ∀ t' db', ModulesTasker.updateRating db id r = some (t', db') →
        t'.averageRating = some r ∧ t'.totalReviews = some 1) ∧
    ((db.taskers.find? fun x => x.id == id) = none →
      ModulesTasker.updateRating db id r = none) := by
  refine ⟨?_, ?_, ?_⟩
  · intro t ht
    constructor
    · unfold ModulesTasker.updateRating
      rw [ht]
      rfl
    · intro t' db' heq
      unfold ModulesTasker.updateRating at heq
      rw [ht] at heq
      simp only [Option.some.injEq, Prod.mk.injEq] at heq
      rcases heq with ⟨ht', hdb'⟩
      subst ht'
      subst hdb'
      refine ⟨?_, rfl, ?_, ?_⟩
      · push_cast
        ring_nf
      · rw [List.map_map]
        refine List.map_congr_left fun x _ => ?_
        by_cases hx : (x.id == id) = true
        · simp [Function.comp, hx]
        · simp [Function.comp, hx]
      · intro x hxmem hxne
        refine List.mem_map.mpr ⟨x, hxmem, ?_⟩
        simp [beq_eq_false_iff_ne.mpr hxne]
  · intro t ht havg hcount t' db' heq
    unfold ModulesTasker.updateRating at heq
    rw [ht] at heq
    simp only [Option.some.injEq, Prod.mk.injEq] at heq
    rcases heq with ⟨ht', _⟩
    subst ht'
    rcases havg with havg | havg <;>
      simp [havg, hcount, Option.getD]
  · intro h
    unfold ModulesTasker.updateRating
    rw [h]

/-- Witness for claim C4 at the spec's example inputs: average 4.0 over 3
reviews plus a 5.0 rating, and a first 3.5 rating on a fresh tasker. -/
theorem c4_rolling_rating_update_witness :
    ((c4db.taskers.find? fun x => x.id == 1) = some c4tasker ∧
      (ModulesTasker.updateRating c4db 1 5).isSome = true ∧
      ∀ t' db', ModulesTasker.updateRating c4db 1 5 = some (t', db') →
        t'.averageRating =
          some ((c4tasker.averageRating.getD 0 * (c4tasker.totalReviews.getD 0 : ℚ) + 5) /
            ((c4tasker.totalReviews.getD 0 : ℚ) + 1)) ∧
        t'.totalReviews = some (c4tasker.totalReviews.getD 0 + 1) ∧
        (db'.taskers.map fun x => x.id) = (c4db.taskers.map fun x => x.id) ∧
        ∀ x ∈ c4db.taskers, x.id ≠ 1 → x ∈ db'.taskers) ∧
    ((c4db.taskers.find? fun x => x.id == 2) = some c4freshTasker ∧
      ∀ t' db', ModulesTasker.updateRating c4db 2 (7 / 2) = some (t', db') →
        t'.averageRating = some (7 / 2 : ℚ) ∧ t'.totalReviews = some 1) ∧
    ((4 : ℚ) * 3 + 5) / (3 + 1) = 17 / 4 :=
  ⟨⟨rfl, (c4_rolling_rating_update c4db 1 5).1 c4tasker rfl⟩,
    ⟨rfl, (c4_rolling_rating_update c4db 2 (7 / 2)).2.1 c4freshTasker rfl
      (Or.inl rfl) rfl⟩,
    by norm_num⟩

/-- Claim C5: `addSkill` reactivates an existing inactive row for the
(tasker, service) pair in place (same primary key, no insert), rejects an
existing active row with a status-400 conflict, and preserves the at-most-one
row (hence at-most-one active row) per pair invariant. -/
theorem c5_add_skill_reactivation (db : Part006Skill.SkillsDB) (tid : Nat)
    (d : Part006Skill.SkillInput) :
    (∀ ex, (db.skills.find? fun s => s.taskerId == tid && s.serviceId == d.serviceId) =
        some ex →
      ex.isActive = false →
      ∃ sk db', Part006Skill.addSkill db tid d = .ok (sk, db') ∧
        sk.id = ex.id ∧ sk.isActive = true ∧ sk.hourlyRate = d.hourlyRate ∧
        (db'.skills.map fun s => s.id) = (db.skills.map fun s => s.id)) ∧
    (∀ ex, (db.skills.find? fun s => s.taskerId == tid && s.serviceId == d.serviceId) =
        some ex →
      ex.isActive = true →
      Part006Skill.addSkill db tid d =
        .error { message := "Tasker already has this skill", status := 400 }) ∧
    (Part006Skill.UniquePerPair db.skills →
      ∀ sk db', Part006Skill.addSkill db tid d = .ok (sk, db') →
        Part006Skill.UniquePerPair db'.skills ∧
        Part006Skill.AtMostOneActivePerPair db'.skills) := by
  have hactive : ∀ l, Part006Skill.UniquePerPair l →
      Part006Skill.AtMostOneActivePerPair l := fun _ h =>
    h.imp fun hab => fun _ _ => hab
  refine ⟨?_, ?_, ?_⟩
  · intro ex hfind hinact
    refine ⟨Part006Skill.reactivate ex d,
      { db with skills := db.skills.map fun s =>
          if s.id == ex.id then Part006Skill.reactivate s d else s },
      ?_, rfl, rfl, rfl, ?_⟩
    · unfold Part006Skill.addSkill
      rw [hfind]
      simp [hinact]
    · rw [List.map_map]
      refine List.map_congr_left fun s _ => ?_
      by_cases hs : (s.id == ex.id) = true
      · simp only [Function.comp, hs, if_pos]
        simp [Part006Skill.reactivate]
      · simp [Function.comp, hs]
  · intro ex hfind hact
    unfold Part006Skill.addSkill
    rw [hfind]
    simp [hact]
  · intro huniq sk db' hok
    unfold Part006Skill.addSkill at hok
    rcases hcase : db.skills.find? fun s => s.taskerId == tid && s.serviceId == d.serviceId with
      _ | ex
    · rw [hcase] at hok
      simp only [Except.ok.injEq, Prod.mk.injEq] at hok
      rcases hok with ⟨_, hdb'⟩
      subst hdb'
      have hall : ∀ s ∈ db.skills,
          ¬(s.taskerId = tid ∧ s.serviceId = d.serviceId) := by
        intro s hs hpair
        have := List.find?_eq_none.mp hcase s hs
        simp [hpair.1, hpair.2] at this
      have huniq' : Part006Skill.UniquePerPair (db.skills ++
          [{ id := db.nextId, taskerId := tid, serviceId := d.serviceId,
             hourlyRate := d.hourlyRate, quickPitch := d.quickPitch,
             experience := d.experience, experienceYears := d.experienceYears,
             hasEquipment := d.hasEquipment,
             equipmentDescription := d.equipmentDescription,
             isQuickAssign := d.isQuickAssign,
             isActive := d.isActive.getD true }]) := by
        refine List.pairwise_append.mpr ⟨huniq, by simp [Part006Skill.UniquePerPair], ?_⟩
        intro a ha b hb hpair
        rcases List.mem_singleton.mp hb with rfl
        exact hall a ha ⟨hpair.1, hpair.2⟩
      exact ⟨huniq', hactive _ huniq'⟩
    · rw [hcase] at hok
      cases hb : ex.isActive
      · simp only [hb, Bool.not_false, if_true, Except.ok.injEq, Prod.mk.injEq] at hok
        rcases hok with ⟨_, hdb'⟩
        subst hdb'
        have hmap : Part006Skill.UniquePerPair (db.skills.map fun s =>
            if s.id == ex.id then Part006Skill.reactivate s d else s) := by
          refine List.Pairwise.map _ ?_ huniq
          intro a b hab hpair
          apply hab
          have hta : ∀ s : Part006Skill.TaskerSkill,
              ((if s.id == ex.id then Part006Skill.reactivate s d else s).taskerId =
                s.taskerId ∧
              (if s.id == ex.id then Part006Skill.reactivate s d else s).serviceId =
                s.serviceId) := by
            intro s
            by_cases hs : (s.id == ex.id) = true <;>
              simp [hs, Part006Skill.reactivate]
          rw [(hta a).1, (hta b).1, (hta a).2, (hta b).2] at hpair
          exact hpair
        exact ⟨hmap, hactive _ hmap⟩
      · simp [hb] at hok

/-- Witness for claim C5: a soft-deleted skill row for the pair is
reactivated in place, and the per-pair uniqueness invariant is preserved. -/
theorem c5_add_skill_reactivation_witness :
    ((c5db.skills.find? fun s => s.taskerId == 9 && s.serviceId == c5input.serviceId) =
        some c5existing ∧ c5existing.isActive = false ∧
      ∃ sk db', Part006Skill.addSkill c5db 9 c5input = .ok (sk, db') ∧
        sk.id = c5existing.id ∧ sk.isActive = true ∧
        sk.hourlyRate = c5input.hourlyRate ∧
        (db'.skills.map fun s => s.id) = (c5db.skills.map fun s => s.id)) ∧
    (Part006Skill.UniquePerPair c5db.skills ∧
      ∀ sk db', Part006Skill.addSkill c5db 9 c5input = .ok (sk, db') →
        Part006Skill.UniquePerPair db'.skills ∧
        Part006Skill.AtMostOneActivePerPair db'.skills) :=
  ⟨⟨rfl, rfl, (c5_add_skill_reactivation c5db 9 c5input).1 c5existing rfl rfl⟩,
    ⟨by simp [Part006Skill.UniquePerPair, c5db],
      (c5_add_skill_reactivation c5db 9 c5input).2.2
        (by simp [Part006Skill.UniquePerPair, c5db])⟩⟩

/-- Claim C6: a verification's stored status moves only along the allowed
transitions pending to in_review or rejected, in_review to verified or
rejected, and rejected to pending; any other requested transition raises an
error naming the current and requested statuses and leaves every other
verification row unchanged; a verification that reached verified never
transitions again; an absent id returns the not-found sentinel. -/
theorem c6_verification_status_transitions (db : VerificationSvc.DB) (id : Nat)
    (st : VerificationSvc.VStatus) (opts : VerificationSvc.UpdateOpts) (now : Nat) :
    (∀ a b : VerificationSvc.VStatus,
      b ∈ VerificationSvc.validTransitions a ↔
        ((a = .pending ∧ b = .inReview) ∨ (a = .pending ∧ b = .rejected) ∨
          (a = .inReview ∧ b = .verified) ∨ (a = .inReview ∧ b = .rejected) ∨
          (a = .rejected ∧ b = .pending))) ∧
    (∀ a b : VerificationSvc.VStatus,
      strContains (VerificationSvc.transitionMsg a b) a.str = true ∧
      strContains (VerificationSvc.transitionMsg a b) b.str = true) ∧
    (∀ v, (db.verifications.find? fun x => x.id == id) = some v →
      st ∉ VerificationSvc.validTransitions v.status →
      VerificationSvc.updateStatus db id st opts now =
        .error { message := VerificationSvc.transitionMsg v.status st, status := 400 }) ∧
    (∀ v, (db.verifications.find? fun x => x.id == id) = some v →
      ∀ v' db', VerificationSvc.updateStatus db id st opts now = .ok (some (v', db')) →
        st ∈ VerificationSvc.validTransitions v.status ∧ v'.status = st ∧
        ∀ w ∈ db.verifications, w.id ≠ id → w ∈ db'.verifications) ∧
    (∀ v, (db.verifications.find? fun x => x.id == id) = some v →
      v.status = .verified →
      ∃ e, VerificationSvc.updateStatus db id st opts now = .error e) ∧
    ((db.verifications.find? fun x => x.id == id) = none →
      VerificationSvc.updateStatus db id st opts now = .ok none) := by
  refine ⟨by decide, ?_, ?_, ?_, ?_, ?_⟩
  · set_option maxHeartbeats 1000000 in decide
  · intro v hv hnotin
    have hc : (VerificationSvc.validTransitions v.status).contains st = false := by
      cases hc : (VerificationSvc.validTransitions v.status).contains st
      · rfl
      · exact absurd (List.mem_of_elem_eq_true hc) hnotin
    unfold VerificationSvc.updateStatus
    rw [hv]
    unfold VerificationSvc.validateStatusTransition
    simp [hc, hnotin]
  · intro v hv v' db' hok
    unfold VerificationSvc.updateStatus at hok
    rw [hv] at hok
    unfold VerificationSvc.validateStatusTransition at hok
    cases hc : (VerificationSvc.validTransitions v.status).contains st
    · have hnotin : st ∉ VerificationSvc.validTransitions v.status := by
        intro hmem
        unfold List.contains at hc
        rw [List.elem_eq_true_of_mem hmem] at hc
        simp at hc
      simp [hnotin] at hok
    · simp only [hc, if_true, Except.ok.injEq, Option.some.injEq,
        Prod.mk.injEq] at hok
      rcases hok with ⟨hv', hdb'⟩
      refine ⟨List.mem_of_elem_eq_true hc, ?_, ?_⟩
      · rw [← hv']
      · intro w hw hwne
        rw [← hdb']
        refine List.mem_map.mpr ⟨w, hw, ?_⟩
        simp [beq_eq_false_iff_ne.mpr hwne]
  · intro v hv hver
    refine ⟨{ message := VerificationSvc.transitionMsg v.status st, status := 400 }, ?_⟩
    unfold VerificationSvc.updateStatus
    rw [hv]
    unfold VerificationSvc.validateStatusTransition
    have hc : (VerificationSvc.validTransitions v.status).contains st = false := by
      rw [hver]
      cases st <;> rfl
    have hnotin : st ∉ VerificationSvc.validTransitions v.status := by
      rw [hver]
      cases st <;> simp [VerificationSvc.validTransitions]
    simp [hc, hnotin]
  · intro h
    unfold VerificationSvc.updateStatus
    rw [h]

/-- Witness for claim C6: on a pending verification, pending to verified is
rejected with the message naming both statuses, and pending to in_review is
accepted and only touches the addressed row. -/
theorem c6_verification_status_transitions_witness :
    ((c6db.verifications.find? fun x => x.id == 3) = some c6verification ∧
      VerificationSvc.VStatus.verified ∉
        VerificationSvc.validTransitions c6verification.status ∧
      VerificationSvc.updateStatus c6db 3 .verified {} 0 =
        .error { message := VerificationSvc.transitionMsg c6verification.status .verified,
                 status := 400 }) ∧
    (∀ v' db',
      VerificationSvc.updateStatus c6db 3 .inReview {} 0 = .ok (some (v', db')) →
      VerificationSvc.VStatus.inReview ∈
        VerificationSvc.validTransitions c6verification.status ∧
      v'.status = .inReview ∧
      ∀ w ∈ c6db.verifications, w.id ≠ 3 → w ∈ db'.verifications) :=
  ⟨⟨rfl, by decide,
      (c6_verification_status_transitions c6db 3 .verified {} 0).2.2.1 c6verification
        rfl (by decide)⟩,
    (c6_verification_status_transitions c6db 3 .inReview {} 0).2.2.2.1 c6verification rfl⟩

/-- Claim C7: slug collision handling is asymmetric.  A create whose computed
slug already exists is rejected as a status-400 conflict; an update that only
renames, whose slugified name collides with a different row, succeeds and
stores the slug suffixed with the updated entity's own numeric id. -/
theorem c7_slug_collision_policy (db : CategorySvc.CatDB)
    (d : CategorySvc.NewCategoryData) (id : Nat) (u : CategorySvc.UpdateData)
    (n : String) :
    (∀ c, CategorySvc.findBySlug db (CategorySvc.createSlug d) = some c →
      CategorySvc.create db d =
        .error { message := "Category with this slug already exists", status := 400 }) ∧
    (jsStr u.slug = none → jsStr u.name = some n →
      ∀ other, CategorySvc.findBySlug db (CategorySvc.slugify n) = some other →
      other.id ≠ id →
      ∀ target, (db.cats.find? fun c => c.id == id) = some target →
      ∃ c' db', CategorySvc.update db id u = .ok (some (c', db')) ∧
        c'.slug = CategorySvc.slugify n ++ "-" ++ toString id ∧
        c'.name = n ∧ c' ∈ db'.cats) := by
  constructor
  · intro c hc
    unfold CategorySvc.create
    simp [hc]
  · intro hslug hname other hother hne target htarget
    refine ⟨{ target with
                name := n
                slug := CategorySvc.slugify n ++ "-" ++ toString id },
      { db with cats := db.cats.map fun x =>
          if x.id == id then
            { target with
                name := n
                slug := CategorySvc.slugify n ++ "-" ++ toString id }
          else x },
      ?_, rfl, rfl, ?_⟩
    · unfold CategorySvc.update
      rw [hslug, hname]
      simp [hother, hne, CategorySvc.applySet, htarget]
    · have hmem : target ∈ db.cats := List.mem_of_find?_eq_some htarget
      refine List.mem_map.mpr ⟨target, hmem, ?_⟩
      have hid := List.find?_some
        (p := fun c : CategorySvc.ServiceCategory => c.id == id) htarget
      simp only [] at hid
      simp [hid]

/-- Witness for claim C7 on the spec's example: creating a second
`Home Cleaning` category conflicts, while renaming category 7 to
`Home Cleaning` succeeds with slug `home-cleaning-7`. -/
theorem c7_slug_collision_policy_witness :
    (CategorySvc.findBySlug c7db (CategorySvc.createSlug c7create) = some c7homeCleaning ∧
      CategorySvc.create c7db c7create =
        .error { message := "Category with this slug already exists", status := 400 }) ∧
    (jsStr c7update.slug = none ∧ jsStr c7update.name = some "Home Cleaning" ∧
      CategorySvc.findBySlug c7db (CategorySvc.slugify "Home Cleaning") =
        some c7homeCleaning ∧
      c7homeCleaning.id ≠ 7 ∧
      (c7db.cats.find? fun c => c.id == 7) = some c7garden ∧
      ∃ c' db', CategorySvc.update c7db 7 c7update = .ok (some (c', db')) ∧
        c'.slug = CategorySvc.slugify "Home Cleaning" ++ "-" ++ toString 7 ∧
        c'.name = "Home Cleaning" ∧ c' ∈ db'.cats) ∧
    CategorySvc.slugify "Home Cleaning" ++ "-" ++ toString 7 = "home-cleaning-7" :=
  ⟨⟨by decide,
      (c7_slug_collision_policy c7db c7create 7 c7update "Home Cleaning").1
        c7homeCleaning (by decide)⟩,
    ⟨rfl, rfl, by decide, by decide, by decide,
      (c7_slug_collision_policy c7db c7create 7 c7update "Home Cleaning").2
        rfl rfl c7homeCleaning (by decide) (by decide) c7garden (by decide)⟩,
    by decide⟩

/-- Members of the base row set of the modules primary-key query come from the
taskers table. -/
theorem fst_mem_of_mem_baseRows (db : ModulesTasker.DB)
    (q : ModulesTasker.IdQuery) (r : ModulesTasker.Row)
    (h : r ∈ ModulesTasker.baseRows db q) : r.1 ∈ db.taskers := by
  unfold ModulesTasker.baseRows at h
  by_cases hj : q.joinSkills
  · rw [if_pos hj] at h
    unfold ModulesTasker.joinRows at h
    rcases List.mem_flatMap.mp h with ⟨t, ht, hin⟩
    rcases List.mem_flatMap.mp hin with ⟨s, _, hin2⟩
    rcases List.mem_map.mp hin2 with ⟨c, _, rfl⟩
    exact ht
  · rw [if_neg hj] at h
    rcases List.mem_map.mp h with ⟨t, ht, rfl⟩
    exact ht

/-- Every id the modules primary-key query returns with the default
active-only condition belongs to an active tasker row. -/
theorem exec_active_of_not_includeInactive (db : ModulesTasker.DB)
    (o : ModulesTasker.SearchParams) (h : o.includeInactive = false) (i : Nat)
    (hi : i ∈ ModulesTasker.execIdQuery db (ModulesTasker.buildIdQuery o)) :
    ∃ t ∈ db.taskers, t.id = i ∧ t.isActive = true := by
  have hconds : ModulesTasker.taskerConds o =
      ModulesTasker.activeCond :: (ModulesTasker.taskerConds { o with includeInactive := true }) := by
    unfold ModulesTasker.taskerConds
    rw [h]
    rfl
  have hwhere : (ModulesTasker.buildIdQuery o).whereClause =
      some fun r => (ModulesTasker.taskerConds o).all fun p => p r.1 := by
    unfold ModulesTasker.buildIdQuery
    rw [hconds]
    simp
  unfold ModulesTasker.execIdQuery at hi
  rw [hwhere] at hi
  rcases List.mem_map.mp hi with ⟨r, hr, rfl⟩
  have hr2 := List.take_subset _ _ hr
  have hr3 := List.drop_subset _ _ hr2
  have hr4 := (mem_sortRows _ _ _).mp hr3
  have hr5 := List.mem_filter.mp hr4
  refine ⟨r.1, fst_mem_of_mem_baseRows db _ r hr5.1, rfl, ?_⟩
  have := hr5.2
  rw [hconds, List.all_cons, Bool.and_eq_true] at this
  exact this.1

/-- Claim C8 (amended): in the modules tasker search, when `includeInactive`
is unset or false every tasker in the returned page has `isActive = true`,
whatever the other filters; the claim fails in the `part_007` task search,
where the exclusion is commented out. -/
theorem c8_inactive_excluded (db : ModulesTasker.DB)
    (o : ModulesTasker.SearchParams) (hwf : db.WF)
    (h : o.includeInactive = false) :
    ∀ r ∈ (ModulesTasker.findAll db o).results, r.tasker.isActive = true := by
  intro r hr
  unfold ModulesTasker.findAll at hr
  by_cases hids : ModulesTasker.execIdQuery db (ModulesTasker.buildIdQuery o) = []
  · rw [if_pos hids] at hr
    simp at hr
  · rw [if_neg hids] at hr
    simp only [List.mem_filterMap] at hr
    rcases hr with ⟨i, hi, hfi⟩
    rcases Option.map_eq_some'.mp hfi with ⟨t, hfind, hrt⟩
    have ht1 : t ∈ db.taskers :=
      List.mem_of_mem_filter (List.mem_of_find?_eq_some hfind)
    have ht2 : (t.id == i) = true := by
      have := List.find?_some
        (p := fun x : ModulesTasker.Tasker => x.id == i) hfind
      simpa using this
    rcases exec_active_of_not_includeInactive db o h i hi with ⟨u, hu, hui, hact⟩
    have : t = u := by
      apply List.inj_on_of_nodup_map hwf ht1 hu
      rw [beq_iff_eq.mp ht2, hui]
    rw [← hrt]
    show t.isActive = true
    rw [this]
    exact hact

/-- Witness for claim C8 on a store holding one active and one inactive
tasker. -/
theorem c8_inactive_excluded_witness :
    ModulesTasker.DB.WF c8db ∧
    ({} : ModulesTasker.SearchParams).includeInactive = false ∧
    ∀ r ∈ (ModulesTasker.findAll c8db {}).results, r.tasker.isActive = true :=
  ⟨by unfold ModulesTasker.DB.WF; decide, rfl,
    c8_inactive_excluded c8db {} (by unfold ModulesTasker.DB.WF; decide) rfl⟩

/-- Counterexample to claim C8 as stated: in the `part_007` task search the
inactive-row exclusion is commented out, so with `includeInactive` unset an
inactive task is returned. -/
theorem c8_part007_returns_inactive :
    ((Part007Task.findAll c8taskDb {}).map fun r => (r.task.id, r.task.isActive)) =
      [(1, false)] ∧
    ({} : Part007Task.SearchParams).includeInactive = false :=
  ⟨by decide, rfl⟩

/-- Claim C9 (amended): an empty primary-key page short-circuits to an empty
result with no follow-up queries in the modules search; and in the `part_020`
generation a category slug matching no catalog row returns an empty list
immediately, with only the slug-lookup query issued (no primary re-fetch and
no child fetches).  As stated over the modules generation the unknown-slug
case fails, see the counterexample. -/
theorem c9_empty_page_short_circuit :
    (∀ (db : ModulesTasker.DB) (o : ModulesTasker.SearchParams),
      ModulesTasker.execIdQuery db (ModulesTasker.buildIdQuery o) = [] →
      (ModulesTasker.findAll db o).results = [] ∧
      (ModulesTasker.findAll db o).laterQueries = 0) ∧
    (∀ (db : Part020Tasker.DB) (o : Part020Tasker.SearchParams) (slug : String),
      jsStr o.categorySlug = some slug →
      (db.categories.find? fun c => c.slug == slug) = none →
      Part020Tasker.findAll db o = { results := [], totalQueries := 1 }) := by
  constructor
  · intro db o h
    unfold ModulesTasker.findAll
    rw [h]
    simp
  · intro db o slug h1 h2
    have hsf : ModulesTasker.hasSkillFilters o = true := by
      unfold ModulesTasker.hasSkillFilters
      rw [h1]
      simp
    unfold Part020Tasker.findAll
    rw [h1]
    simp [hsf, h2]

/-- Witness for claim C9: an empty store short-circuits the modules search,
and an unknown slug short-circuits the `part_020` search after one query. -/
theorem c9_empty_page_short_circuit_witness :
    (ModulesTasker.execIdQuery {} (ModulesTasker.buildIdQuery {}) = [] ∧
      (ModulesTasker.findAll {} {}).results = [] ∧
      (ModulesTasker.findAll {} {}).laterQueries = 0) ∧
    (jsStr c9opts.categorySlug = some "gardening" ∧
      (c9page20db.categories.find? fun c => c.slug == "gardening") = none ∧
      Part020Tasker.findAll c9page20db c9opts =
        { results := [], totalQueries := 1 }) :=
  ⟨⟨rfl, c9_empty_page_short_circuit.1 {} {} rfl⟩,
    ⟨rfl, rfl, c9_empty_page_short_circuit.2 c9page20db c9opts "gardening" rfl rfl⟩⟩

/-- Counterexample to claim C9 as stated: in the modules tasker search a
category slug matching no catalog row still returns a nonempty page, because
the slug predicate is lost when the tasker-level where clause replaces the
skill-level one. -/
theorem c9_unknown_slug_not_empty :
    ((ModulesTasker.findAll c9db c9opts).results.map fun r => r.tasker.id) = [1] ∧
    (∀ c ∈ c9db.categories, c.slug ≠ "gardening") ∧
    c9opts.categorySlug = some "gardening" :=
  ⟨by decide, by decide, rfl⟩

/-- Claim C10 (amended): the `part_006` tasker search floors the page at 1 and
clamps the limit into [1, 100] before computing the offset; the modules tasker
search uses the raw `(page - 1) * limit` with no normalization, and the
`part_007` task search only floors both at 1 (no upper clamp). -/
theorem c10_pagination_normalization :
    (∀ page limit : Int,
      1 ≤ Part006Tasker.validatedPage page ∧
      page ≤ Part006Tasker.validatedPage page ∧
      (Part006Tasker.validatedPage page = page ∨
        Part006Tasker.validatedPage page = 1) ∧
      1 ≤ Part006Tasker.validatedLimit limit ∧
      Part006Tasker.validatedLimit limit ≤ 100 ∧
      (Part006Tasker.validatedLimit limit = limit ∨
        Part006Tasker.validatedLimit limit = 1 ∨
        Part006Tasker.validatedLimit limit = 100) ∧
      Part006Tasker.pageOffset page limit =
        (Part006Tasker.validatedPage page - 1) * Part006Tasker.validatedLimit limit) ∧
    (∀ o : ModulesTasker.SearchParams,
      (ModulesTasker.buildIdQuery o).offsetVal = (o.page - 1) * o.limit ∧
      (ModulesTasker.buildIdQuery o).limitVal = o.limit) ∧
    (∀ limit : Int, Part007Task.validLimit limit = max limit 1) := by
  refine ⟨?_, ?_, fun _ => rfl⟩
  · intro page limit
    unfold Part006Tasker.validatedPage Part006Tasker.validatedLimit
      Part006Tasker.pageOffset
    refine ⟨le_max_left 1 page, le_max_right 1 page, ?_, ?_, min_le_right _ 100,
      ?_, rfl⟩
    · rcases max_choice 1 page with h | h
      · exact Or.inr h
      · exact Or.inl h
    · exact le_min (le_max_left 1 limit) (by norm_num)
    · rcases min_choice (max 1 limit) 100 with h | h
      · rcases max_choice 1 limit with h2 | h2
        · exact Or.inr (Or.inl (h.trans h2))
        · exact Or.inl (h.trans h2)
      · exact Or.inr (Or.inr h)
  · intro o
    by_cases h1 : ModulesTasker.hasSkillFilters o = true <;>
      by_cases h2 : (ModulesTasker.taskerConds o).length > 0 <;>
        simp [ModulesTasker.buildIdQuery, h1, h2]

/-- Counterexample to claim C10 as stated: the modules tasker search applies
no normalization (page 0 with limit 200 yields offset -200 and limit 200,
where the claim requires offset 0 and a limit of at most 100), and the
`part_007` generation does not clamp the limit at 100. -/
theorem c10_no_normalization :
    (ModulesTasker.buildIdQuery { page := 0, limit := 200 }).offsetVal = -200 ∧
    ((-200 : Int) ≠ (max 1 0 - 1) * min (max 1 200) 100) ∧
    (ModulesTasker.buildIdQuery { page := 0, limit := 200 }).limitVal = 200 ∧
    ¬((200 : Int) ≤ 100) ∧
    Part007Task.validLimit 500 = 500 ∧ ¬((500 : Int) ≤ 100) := by
  refine ⟨by decide, by decide, by decide, by decide, by decide, by decide⟩

/-- The hydrated rows are the page rows in order (one output row per parent,
carrying that parent). -/
theorem hydrate_ids (db : Part020Tasker.DB) (l : List Part020Tasker.Tasker) :
    ((Part020Tasker.hydrate db l).map fun r => r.tasker.id) = l.map fun t => t.id := by
  simp only [Part020Tasker.hydrate, List.map_map]
  rfl

/-- Every hydrated row carries its parent, exactly that parent's own portfolio
items ordered by `displayOrder` ascending, and exactly its own active
skills. -/
theorem hydrate_children (db : Part020Tasker.DB) (l : List Part020Tasker.Tasker)
    (r : Part020Tasker.TaskerWithRelations)
    (hr : r ∈ Part020Tasker.hydrate db l) :
    r.tasker ∈ l ∧
    r.portfolioItems.Perm
      (db.taskerPortfolio.filter fun p => p.taskerId == r.tasker.id) ∧
    List.Pairwise (fun a b => a.displayOrder ≤ b.displayOrder) r.portfolioItems ∧
    (r.skills.map fun s => s.skill) =
      (db.taskerSkills.filter fun s => s.taskerId == r.tasker.id && s.isActive) := by
  simp only [Part020Tasker.hydrate] at hr
  rcases List.mem_map.mp hr with ⟨t, htl, rfl⟩
  have hid : t.id ∈ l.map fun x => x.id := List.mem_map.mpr ⟨t, htl, rfl⟩
  have hcont : ∀ m : Nat, m = t.id →
      (l.map fun x => x.id).contains m = true := by
    intro m hm
    subst hm
    exact List.elem_eq_true_of_mem hid
  refine ⟨htl, ?_, ?_, ?_⟩
  · show List.Perm ((sortRows (fun a b => decide (a.displayOrder ≤ b.displayOrder))
      (db.taskerPortfolio.filter fun i =>
        (l.map fun x => x.id).contains i.taskerId)).filter
          fun p => p.taskerId == t.id) _
    have h1 := List.Perm.filter
      (fun p : Part020Tasker.PortfolioItem => p.taskerId == t.id)
      (perm_sortRows (fun a b => decide (a.displayOrder ≤ b.displayOrder))
        (db.taskerPortfolio.filter fun i =>
          (l.map fun x => x.id).contains i.taskerId))
    refine h1.trans ?_
    rw [List.filter_filter]
    rw [List.filter_congr (fun a _ => ?_)]
    by_cases hpa : (a.taskerId == t.id) = true
    · rw [hpa, hcont a.taskerId (beq_iff_eq.mp hpa)]
      rfl
    · rw [Bool.not_eq_true] at hpa
      rw [hpa]
      rfl
  · show List.Pairwise _ ((sortRows (fun a b => decide (a.displayOrder ≤ b.displayOrder))
      (db.taskerPortfolio.filter fun i =>
        (l.map fun x => x.id).contains i.taskerId)).filter
          fun p => p.taskerId == t.id)
    have hsorted := pairwise_sortRows
      (fun a b : Part020Tasker.PortfolioItem => decide (a.displayOrder ≤ b.displayOrder))
      (fun x y => by
        rcases Nat.le_total x.displayOrder y.displayOrder with h | h
        · exact Or.inl (decide_eq_true h)
        · exact Or.inr (decide_eq_true h))
      (fun x y z hxy hyz =>
        decide_eq_true (Nat.le_trans (of_decide_eq_true hxy) (of_decide_eq_true hyz)))
      (db.taskerPortfolio.filter fun i => (l.map fun x => x.id).contains i.taskerId)
    have hsub : List.Pairwise
        (fun x y : Part020Tasker.PortfolioItem =>
          decide (x.displayOrder ≤ y.displayOrder) = true)
        ((sortRows (fun a b => decide (a.displayOrder ≤ b.displayOrder))
          (db.taskerPortfolio.filter fun i =>
            (l.map fun x => x.id).contains i.taskerId)).filter
              fun p => p.taskerId == t.id) :=
      List.Pairwise.sublist (List.filter_sublist _) hsorted
    exact hsub.imp fun h => of_decide_eq_true h
  · show List.map (fun s : ModulesTasker.SkillWithCategory => s.skill)
      (List.filter (fun s => s.skill.taskerId == t.id)
        (List.map (fun s =>
          { skill := s
            categoryName := (db.categories.find? fun c => s.categoryId == c.id).map (·.name)
            categorySlug := (db.categories.find? fun c => s.categoryId == c.id).map (·.slug) :
            ModulesTasker.SkillWithCategory })
          (db.taskerSkills.filter fun s =>
            (l.map fun x => x.id).contains s.taskerId && s.isActive))) = _
    rw [List.filter_map, List.map_map]
    show List.map (fun s : Part020Tasker.TaskerSkill => s)
      (List.filter (fun s : Part020Tasker.TaskerSkill => s.taskerId == t.id)
        (db.taskerSkills.filter fun s =>
          (l.map fun x => x.id).contains s.taskerId && s.isActive)) = _
    rw [List.map_id']
    rw [List.filter_filter]
    refine List.filter_congr fun s _ => ?_
    by_cases hpa : (s.taskerId == t.id) = true
    · rw [hpa, hcont s.taskerId (beq_iff_eq.mp hpa)]
      rfl
    · rw [Bool.not_eq_true] at hpa
      rw [hpa]
      rfl

/-- The primary page of the `part_020` taskers query has distinct primary
keys when the store does. -/
theorem nodup_primaryRows (db : Part020Tasker.DB) (o : Part020Tasker.SearchParams)
    (w : Option (Part020Tasker.Tasker → Bool)) (hwf : db.WF) :
    ((Part020Tasker.primaryRows db o w).map fun t => t.id).Nodup := by
  have hnd : ∀ base : List Part020Tasker.Tasker, base.Sublist db.taskers →
      (base.map fun t : Part020Tasker.Tasker => t.id).Nodup :=
    fun base hsub => List.Nodup.sublist (List.Sublist.map _ hsub) hwf
  have key : ∀ base sorted : List Part020Tasker.Tasker, base.Sublist db.taskers →
      sorted.Perm base →
      (((sorted.drop ((o.page - 1) * o.limit).toNat).take o.limit.toNat).map
        fun t : Part020Tasker.Tasker => t.id).Nodup :=
    fun base sorted hsub hperm =>
      List.Nodup.sublist
        (List.Sublist.map _ ((List.take_sublist _ _).trans (List.drop_sublist _ _)))
        (List.Perm.nodup (List.Perm.symm (hperm.map _)) (hnd base hsub))
  simp only [Part020Tasker.primaryRows]
  rcases w with _ | p <;> rcases o.sort <;>
    first
      | exact key _ _ (List.Sublist.refl _) (List.Perm.refl _)
      | exact key _ _ (List.Sublist.refl _) (perm_sortRows _ _)
      | exact key _ _ (List.filter_sublist _) (List.Perm.refl _)
      | exact key _ _ (List.filter_sublist _) (perm_sortRows _ _)

/-- For every sort except `rate`, the `runMain` phase of the `part_020`
search returns the hydrated parents in exactly the primary page's order, with
each parent's own children attached. -/
theorem runMain_results (db : Part020Tasker.DB) (o : Part020Tasker.SearchParams)
    (w : Option (Part020Tasker.Tasker → Bool)) (qc : Nat) (hwf : db.WF)
    (hs : o.sort ≠ ModulesTasker.SortKey.rate) :
    ((Part020Tasker.runMain db o w qc).results.map fun r => r.tasker.id) =
      ((Part020Tasker.primaryRows db o w).map fun t => t.id) ∧
    ∀ r ∈ (Part020Tasker.runMain db o w qc).results,
      r.portfolioItems.Perm
        (db.taskerPortfolio.filter fun p => p.taskerId == r.tasker.id) ∧
      List.Pairwise (fun a b => a.displayOrder ≤ b.displayOrder) r.portfolioItems ∧
      (r.skills.map fun s => s.skill) =
        (db.taskerSkills.filter fun s => s.taskerId == r.tasker.id && s.isActive) := by
  have hsbeq : (o.sort == ModulesTasker.SortKey.rate) = false :=
    beq_eq_false_iff_ne.mpr hs
  simp only [Part020Tasker.runMain]
  by_cases hlen : (Part020Tasker.primaryRows db o w).length = 0
  · rw [if_pos hlen]
    have hnil : Part020Tasker.primaryRows db o w = [] := List.length_eq_zero.mp hlen
    rw [hnil]
    exact ⟨rfl, by intro r hr; simp at hr⟩
  · rw [if_neg hlen, hsbeq]
    simp only [Bool.false_eq_true, if_false]
    have hmap : ((Part020Tasker.hydrate db (Part020Tasker.primaryRows db o w)).map
        fun r => r.tasker.id) = (Part020Tasker.primaryRows db o w).map fun t => t.id :=
      hydrate_ids db _
    have hnodup := nodup_primaryRows db o w hwf
    have hre := reassemble_filterMap
      (fun r : Part020Tasker.TaskerWithRelations => r.tasker.id)
      (Part020Tasker.hydrate db (Part020Tasker.primaryRows db o w))
      (by rw [hmap]; exact hnodup)
    rw [hmap] at hre
    constructor
    · rw [hre]
      exact hmap
    · intro r hr
      rw [hre] at hr
      exact (hydrate_children db _ r hr).2

/-- Claim C3 (amended): in the `part_020` search, for every sort value other
than `rate`, the returned hydrated collection's parent order equals the
primary page's key order, and each parent carries exactly its own portfolio
items ordered by `displayOrder` ascending and exactly its own active skills;
for `sort = "rate"` the collection is instead re-sorted in memory, see the
counterexample. -/
theorem c3_hydration_preserves_page_order (db : Part020Tasker.DB)
    (o : Part020Tasker.SearchParams) (hwf : db.WF)
    (hs : o.sort ≠ ModulesTasker.SortKey.rate) :
    ((Part020Tasker.findAll db o).results.map fun r => r.tasker.id) =
      Part020Tasker.pageIds db o ∧
    ∀ r ∈ (Part020Tasker.findAll db o).results,
      r.portfolioItems.Perm
        (db.taskerPortfolio.filter fun p => p.taskerId == r.tasker.id) ∧
      List.Pairwise (fun a b => a.displayOrder ≤ b.displayOrder) r.portfolioItems ∧
      (r.skills.map fun s => s.skill) =
        (db.taskerSkills.filter fun s => s.taskerId == r.tasker.id && s.isActive) := by
  unfold Part020Tasker.findAll Part020Tasker.pageIds
  by_cases hsf : ModulesTasker.hasSkillFilters o = true
  · rw [if_pos hsf, if_pos hsf]
    rcases hslug : jsStr o.categorySlug with _ | slug
    · simp only [Part020Tasker.runWithSkills]
      by_cases hids : ((db.taskerSkills.filter
          (if (Part020Tasker.skillCondsWith o none).length > 0 then
            allPreds (Part020Tasker.skillCondsWith o none)
          else fun s => s.isActive)).map fun s => s.taskerId) = []
      · rw [if_pos hids]
        simp only [Part020Tasker.skillsTaskerWhere, hids]
        constructor
        · rw [show Part020Tasker.primaryRows db o
              (some fun t => ([] : List Nat).contains t.id) = [] from ?_]
          · rfl
          · simp only [Part020Tasker.primaryRows]
            rw [show db.taskers.filter (fun t => ([] : List Nat).contains t.id) = []
              from List.filter_eq_nil_iff.mpr fun a _ => by simp [List.contains]]
            rcases o.sort <;> simp [sortRows]
        · intro r hr
          simp at hr
      · rw [if_neg hids]
        exact runMain_results db o _ _ hwf hs
    · rcases hcat : db.categories.find? fun c => c.slug == slug with _ | cat
      · simp only [hcat]
        exact ⟨rfl, by intro r hr; simp at hr⟩
      · simp only [hcat]
        simp only [Part020Tasker.runWithSkills]
        by_cases hids : ((db.taskerSkills.filter
            (if (Part020Tasker.skillCondsWith o (some cat.id)).length > 0 then
              allPreds (Part020Tasker.skillCondsWith o (some cat.id))
            else fun s => s.isActive)).map fun s => s.taskerId) = []
        · rw [if_pos hids]
          simp only [Part020Tasker.skillsTaskerWhere, hids]
          constructor
          · rw [show Part020Tasker.primaryRows db o
                (some fun t => ([] : List Nat).contains t.id) = [] from ?_]
            · rfl
            · simp only [Part020Tasker.primaryRows]
              rw [show db.taskers.filter (fun t => ([] : List Nat).contains t.id) = []
                from List.filter_eq_nil_iff.mpr fun a _ => by simp [List.contains]]
              rcases o.sort <;> simp [sortRows]
          · intro r hr
            simp at hr
        · rw [if_neg hids]
          exact runMain_results db o _ _ hwf hs
  · rw [if_neg hsf, if_neg hsf]
    exact runMain_results db o _ _ hwf hs

/-- Counterexample to claim C3 as stated: with `sort = "rate"` the `part_020`
search re-sorts the hydrated collection in memory by minimum active-skill
rate, so the returned parent order [2, 1] differs from the primary page's key
order [1, 2]. -/
theorem c3_rate_sort_breaks_page_order :
    ((Part020Tasker.findAll c3db c3opts).results.map fun r => r.tasker.id) = [2, 1] ∧
    Part020Tasker.pageIds c3db c3opts = [1, 2] ∧
    ([2, 1] : List Nat) ≠ [1, 2] ∧
    c3opts.sort = ModulesTasker.SortKey.rate :=
  ⟨by decide, by decide, by decide, rfl⟩

/-- Witness for claim C3 on a concrete two-tasker store with a sort the code
does not post-process. -/
theorem c3_hydration_preserves_page_order_witness :
    Part020Tasker.DB.WF c3db ∧ c3wopts.sort ≠ ModulesTasker.SortKey.rate ∧
    (((Part020Tasker.findAll c3db c3wopts).results.map fun r => r.tasker.id) =
        Part020Tasker.pageIds c3db c3wopts ∧
      ∀ r ∈ (Part020Tasker.findAll c3db c3wopts).results,
        r.portfolioItems.Perm
          (c3db.taskerPortfolio.filter fun p => p.taskerId == r.tasker.id) ∧
        List.Pairwise (fun a b => a.displayOrder ≤ b.displayOrder) r.portfolioItems ∧
        (r.skills.map fun s => s.skill) =
          (c3db.taskerSkills.filter fun s => s.taskerId == r.tasker.id && s.isActive)) :=
  ⟨by unfold Part020Tasker.DB.WF; decide, by decide,
    c3_hydration_preserves_page_order c3db c3wopts
      (by unfold Part020Tasker.DB.WF; decide) (by decide)⟩
